import Mathlib

/-!
Verification of the trust-lens plagiarism analysis pipeline.

The TypeScript sources are embedded shallowly:
  * document text is `List Char` (one entry per UTF-16 code unit);
  * JS numbers are `ℚ` (exact rational arithmetic; IEEE rounding is not
    modelled) and array indices are `ℤ` or `ℕ` as appropriate;
  * functions that can `throw` return `Except`;
  * the network collaborators (web search, similarity scoring, AI
    classification) are oracles: their observable outcome per call is a
    parameter of the embedded orchestration code.
-/

/- ===================== generic JS string helpers ===================== -/

/-- Does `pre` occur at the head of `l`?  (JS `String.prototype.startsWith`). -/
def leadsChars (pre l : List Char) : Bool :=
  match pre, l with
  | [], _ => true
  | _ :: _, [] => false
  | a :: as2, b :: bs => a == b && leadsChars as2 bs

/-- Does `needle` occur somewhere inside `hay`?  (JS `String.prototype.includes`). -/
def hasSubChars (hay needle : List Char) : Bool :=
  if leadsChars needle hay then true
  else
    match hay with
    | [] => false
    | _ :: t => hasSubChars t needle

/-- `String` front-end for `hasSubChars`. -/
def hasSub (hay needle : String) : Bool :=
  hasSubChars hay.data needle.data

/-- `String` front-end for `leadsChars`. -/
def startsWithStr (s pre : String) : Bool :=
  leadsChars pre.data s.data

/-- Remove the first occurrence of `needle` from `hay`
(JS `String.prototype.replace` with a string pattern and empty replacement). -/
def replaceFirstChars (hay needle : List Char) : List Char :=
  if needle = [] then hay
  else if leadsChars needle hay then hay.drop needle.length
  else
    match hay with
    | [] => []
    | c :: t => c :: replaceFirstChars t needle

/-- `String` front-end for `replaceFirstChars`. -/
def replaceFirst (hay needle : String) : String :=
  ⟨replaceFirstChars hay.data needle.data⟩

/-- ASCII whitespace recognised by JS `trim` (Unicode spaces are not modelled;
no text in this development contains them). -/
def isJsSpace (c : Char) : Bool :=
  c == ' ' || c == '\t' || c == '\n' || c == '\r' ||
  c == Char.ofNat 11 || c == Char.ofNat 12

/-- JS `String.prototype.trim` on character lists. -/
def trimChars (l : List Char) : List Char :=
  ((l.dropWhile isJsSpace).reverse.dropWhile isJsSpace).reverse

/-- JS `String.prototype.trim`. -/
def trimJS (s : String) : String :=
  ⟨trimChars s.data⟩

/- ===================== data model (src/lib/types/plagiarism.ts) ===================== -/

/-- `AIVerdict` union type. -/
inductive AIVerdict
  | likely_ai
  | likely_human
  | uncertain
deriving DecidableEq

/-- `RiskLevel` union type. -/
inductive RiskLevel
  | low
  | medium
  | high
deriving DecidableEq

/-- `AnalysisStatus` union type (returned by `checkPlagiarism`). -/
inductive AnalysisStatus
  | success
  | partial_success
  | error
deriving DecidableEq

/-- `SourceMatch` record. -/
structure SourceMatch where
  url : String
  title : Option String := none
  snippet : Option String := none
  similarityScore : ℚ
deriving DecidableEq

/-- `SuspiciousSegment` record.  Indices are `ℤ` so that JS subtraction in the
aggregation code is modelled exactly, even on degenerate segments. -/
structure SuspiciousSegment where
  startIndex : ℤ
  endIndex : ℤ
  textPreview : List Char
  similarityScore : ℚ
  sources : List SourceMatch
deriving DecidableEq

/-- `AIDetectionResult` record. -/
structure AIDetectionResult where
  likelihood : ℚ
  verdict : AIVerdict
deriving DecidableEq

/-- `TextChunk` record. -/
structure TextChunk where
  text : List Char
  startIndex : ℕ
  endIndex : ℕ
deriving DecidableEq

/-- `PlagiarismReport` record.  The human-readable `explanation` string is the
only field left out: no claim refers to it and it is pure text formatting. -/
structure PlagiarismReportCore where
  normalizedTextLength : ℕ
  plagiarismPercentage : ℚ
  riskLevel : RiskLevel
  suspiciousSegments : List SuspiciousSegment
  aiGeneratedLikelihood : ℚ
  aiVerdict : AIVerdict
  analysisStatus : AnalysisStatus
deriving DecidableEq

/-- `PipelineResult` union (plagiarismPipeline.ts). -/
inductive ErrorType
  | bad_request
  | extraction_error
  | upstream_error
  | analysis_error
deriving DecidableEq

/-- The orchestrator's only output type. -/
structure PipelineResult where
  ok : Bool
  report : Option PlagiarismReportCore := none
  errorType : Option ErrorType := none
  message : Option String := none
  userMessage : Option String := none
deriving DecidableEq

/-- The JS value handed to `runPlagiarismPipeline`: `null`/`undefined`, a
non-object, or an object whose `text` field may hold a string and whose
`fileBuffer` field may be truthy. -/
inductive JsInput
  | jsNull
  | nonObject
  | obj (text : Option String) (fileBufferTruthy : Bool)

/-- Observable behaviour of the `await checkPlagiarism(input)` call: a report,
an invalid (non-object) result, or a thrown value whose coerced string
(`String(err?.message || err?.toString() || "Unknown error")`) is `raw`. -/
inductive CheckOutcome
  | retOk (r : PlagiarismReportCore)
  | retInvalid
  | thrown (raw : String)

/- ===================== pipeline orchestrator (plagiarismPipeline.ts) ===================== -/

/-- Error-marker classification in the catch-block of `runPlagiarismPipeline`:
the coerced error string is inspected with `startsWith` in taxonomy order. -/
def thrownErrorType (raw : String) : ErrorType :=
  if startsWithStr raw "BAD_REQUEST:" then .bad_request
  else if startsWithStr raw "EXTRACTION_ERROR:" then .extraction_error
  else if startsWithStr raw "UPSTREAM_ERROR:" then .upstream_error
  else .analysis_error

/-- Message clean-up in the catch-block: strip the first occurrence of each
marker (JS `replace` with a string pattern) and trim. -/
def thrownMessageCore (raw : String) : String :=
  trimJS (replaceFirst (replaceFirst (replaceFirst raw "BAD_REQUEST:")
    "EXTRACTION_ERROR:") "UPSTREAM_ERROR:")

/-- The catch-block of `runPlagiarismPipeline` (lines 59-88). -/
def classifyThrown (raw : String) : PipelineResult where
  ok := false
  errorType := some (thrownErrorType raw)
  message := some (if thrownMessageCore raw = "" then
    "An unexpected error occurred during analysis." else thrownMessageCore raw)
  userMessage :=
    if thrownErrorType raw = .upstream_error then
      some "Search service is temporarily unavailable. Please try again later or use the demo examples."
    else none

/-- `typeof input?.text === "string" && input.text.trim().length > 0`. -/
def hasTextField : Option String → Bool
  | some t => (trimJS t).length > 0
  | none => false

/-- `runPlagiarismPipeline` (plagiarismPipeline.ts lines 21-89) with the
`checkPlagiarism` call abstracted by its outcome. -/
def runPlagiarismPipeline (input : JsInput) (outcome : CheckOutcome) : PipelineResult :=
  match input with
  | .jsNull =>
    { ok := false, errorType := some .bad_request,
      message := some "Invalid input: expected an object with 'text' or 'fileBuffer'." }
  | .nonObject =>
    { ok := false, errorType := some .bad_request,
      message := some "Invalid input: expected an object with 'text' or 'fileBuffer'." }
  | .obj text fileBufferTruthy =>
    if !hasTextField text && !fileBufferTruthy then
      { ok := false, errorType := some .bad_request,
        message := some "Please provide either text or an uploaded document." }
    else
      match outcome with
      | .retOk r => { ok := true, report := some r }
      | .retInvalid =>
        { ok := false, errorType := some .analysis_error,
          message := some "Plagiarism checker returned invalid result." }
      | .thrown raw => classifyThrown raw

/- ===================== claim C1 ===================== -/

/-- C1: the orchestrator never raises.  The embedding of
`runPlagiarismPipeline` is a total function into `PipelineResult` for every
input shape (null, non-object, object missing text/fileBuffer) and for every
behaviour of `checkPlagiarism` (any report, an invalid result, or any thrown
value); whenever no report is produced the result has `ok = false`, an
`errorType` drawn from the four-member taxonomy, and a non-empty message. -/
theorem c1_pipeline_never_raises (input : JsInput) (outcome : CheckOutcome) :
    (((runPlagiarismPipeline input outcome).ok = false) →
      ((runPlagiarismPipeline input outcome).errorType = some .bad_request ∨
       (runPlagiarismPipeline input outcome).errorType = some .extraction_error ∨
       (runPlagiarismPipeline input outcome).errorType = some .upstream_error ∨
       (runPlagiarismPipeline input outcome).errorType = some .analysis_error) ∧
      ((runPlagiarismPipeline input outcome).message.getD "" ≠ "")) ∧
    (((runPlagiarismPipeline input outcome).ok = true) →
      (runPlagiarismPipeline input outcome).report.isSome = true) := by
  rcases input with _ | _ | ⟨text, fb⟩
  · exact ⟨fun _ => ⟨Or.inl rfl, by simp [runPlagiarismPipeline]⟩,
      fun h => by simp [runPlagiarismPipeline] at h⟩
  · exact ⟨fun _ => ⟨Or.inl rfl, by simp [runPlagiarismPipeline]⟩,
      fun h => by simp [runPlagiarismPipeline] at h⟩
  · simp only [runPlagiarismPipeline]
    by_cases hv : (!hasTextField text && !fb) = true
    · rw [if_pos hv]
      exact ⟨fun _ => ⟨Or.inl rfl, by simp⟩, fun h => by simp at h⟩
    · rw [if_neg hv]
      rcases outcome with r | _ | raw
      · exact ⟨fun h => by simp at h, fun _ => rfl⟩
      · exact ⟨fun _ => ⟨Or.inr (Or.inr (Or.inr rfl)), by simp⟩,
          fun h => by simp at h⟩
      · refine ⟨fun _ => ⟨?_, ?_⟩, fun h => ?_⟩
        · show some (thrownErrorType raw) = _ ∨ some (thrownErrorType raw) = _ ∨
            some (thrownErrorType raw) = _ ∨ some (thrownErrorType raw) = _
          unfold thrownErrorType
          split_ifs <;> simp
        · show Option.getD (some (if thrownMessageCore raw = "" then _ else
            thrownMessageCore raw)) "" ≠ ""
          by_cases hz : thrownMessageCore raw = ""
          · simp [hz]
          · simp [hz]
        · exact absurd h (by simp [classifyThrown])

/-- C1 witness: concrete run on `null` input with a thrown non-`Error` value. -/
theorem c1_pipeline_never_raises_witness :
    (((runPlagiarismPipeline .jsNull (.thrown "boom")).ok = false) →
      ((runPlagiarismPipeline .jsNull (.thrown "boom")).errorType = some .bad_request ∨
       (runPlagiarismPipeline .jsNull (.thrown "boom")).errorType = some .extraction_error ∨
       (runPlagiarismPipeline .jsNull (.thrown "boom")).errorType = some .upstream_error ∨
       (runPlagiarismPipeline .jsNull (.thrown "boom")).errorType = some .analysis_error) ∧
      ((runPlagiarismPipeline .jsNull (.thrown "boom")).message.getD "" ≠ "")) ∧
    (((runPlagiarismPipeline .jsNull (.thrown "boom")).ok = true) →
      (runPlagiarismPipeline .jsNull (.thrown "boom")).report.isSome = true) :=
  c1_pipeline_never_raises .jsNull (.thrown "boom")

/- ===================== cache keys (src/lib/utils/cache.ts) ===================== -/

/-- JS `ToInt32`: wrap an integer into `[-2^31, 2^31)`. -/
def toInt32 (n : ℤ) : ℤ :=
  (n + 2 ^ 31) % 2 ^ 32 - 2 ^ 31

/-- One step of the rolling hash: `hash = (hash << 5) - hash + charCode;
hash = hash & hash`.  `<<` operates on the 32-bit value (the accumulator is
already 32-bit), the add/subtract are exact, and `& hash` truncates to 32
bits again. -/
def hashStep (h : ℤ) (code : ℕ) : ℤ :=
  toInt32 (toInt32 (h * 32) - h + code)

/-- The rolling hash over a character list, starting from 0.
`charCodeAt` is modelled by `Char.toNat` (identical on the BMP, and no text
in this development leaves it). -/
def hashChars (l : List Char) : ℤ :=
  l.foldl (fun h c => hashStep h c.toNat) 0

/-- Digit characters for `Number.prototype.toString(36)`. -/
def base36Digit (d : ℕ) : Char :=
  if d < 10 then Char.ofNat (48 + d) else Char.ofNat (87 + d)

/-- Base-36 digits of `n`, most significant first; `fuel` bounds the
recursion depth and `n + 1` is always enough. -/
def natToBase36Core : ℕ → ℕ → List Char
  | 0, _ => []
  | fuel + 1, n =>
    if n < 36 then [base36Digit n]
    else natToBase36Core fuel (n / 36) ++ [base36Digit (n % 36)]

/-- `Math.abs(hash).toString(36)` for a natural number. -/
def natToBase36 (n : ℕ) : String :=
  ⟨natToBase36Core (n + 1) n⟩

/-- `getAICacheKey` (cache.ts lines 228-237): hash only the first 1000
characters of the text. -/
def getAICacheKey (text : List Char) : String :=
  "ai:" ++ natToBase36 (hashChars (text.take 1000)).natAbs

/- ===================== AI detector (src/lib/services/aiGeneratedDetector.ts) ===================== -/

/-- `MAX_TEXT_LENGTH` in aiGeneratedDetector.ts. -/
def AI_MAX_TEXT_LENGTH : ℕ := 200000

/-- `const textToAnalyze = fullText.slice(0, MAX_TEXT_LENGTH).trim()`
(aiGeneratedDetector.ts line 39). -/
def aiTextToAnalyze (fullText : List Char) : List Char :=
  trimChars (fullText.take AI_MAX_TEXT_LENGTH)

/-- The cache read in `detectAIGeneratedText` (lines 42-46): look up the
key derived from the truncated, trimmed text. -/
def aiCacheLookup (cache : String → Option AIDetectionResult)
    (fullText : List Char) : Option AIDetectionResult :=
  cache (getAICacheKey (aiTextToAnalyze fullText))

/-- `Math.max(0.01, Math.min(0.99, rawLikelihood))` (line 82). -/
def clampLikelihood (raw : ℚ) : ℚ :=
  max (1 / 100) (min (99 / 100) raw)

/-- Decode the classifier's verdict string; `none` when it is not one of the
three members of `validVerdicts` (lines 86-89). -/
def verdictOfString (s : String) : Option AIVerdict :=
  if s = "likely_ai" then some .likely_ai
  else if s = "likely_human" then some .likely_human
  else if s = "uncertain" then some .uncertain
  else none

/-- Threshold rule used when the classifier's verdict string is invalid
(lines 92-99). -/
def deriveVerdict (likelihood : ℚ) : AIVerdict :=
  if likelihood ≥ 7 / 10 then .likely_ai
  else if likelihood ≤ 3 / 10 then .likely_human
  else .uncertain

/-- The parsed-response branch of `detectAIGeneratedText` (lines 76-111):
clamp the likelihood; keep a recognised verdict string as-is, and only
re-derive the verdict from the likelihood when the string is invalid. -/
def aiParseOutcome (rawLikelihood : ℚ) (rawVerdict : String) : AIDetectionResult :=
  let likelihood := clampLikelihood rawLikelihood
  { likelihood := likelihood
    verdict :=
      match verdictOfString rawVerdict with
      | some v => v
      | none => deriveVerdict likelihood }

/-- The threshold-consistency relation of the spec: likelihood ≥ 0.7 forces
`likely_ai`, ≤ 0.3 forces `likely_human`, anything strictly between forces
`uncertain`. -/
def consistentVerdict (likelihood : ℚ) (v : AIVerdict) : Prop :=
  (7 / 10 ≤ likelihood → v = .likely_ai) ∧
  (likelihood ≤ 3 / 10 → v = .likely_human) ∧
  (3 / 10 < likelihood → likelihood < 7 / 10 → v = .uncertain)

/- ===================== normalizer (src/lib/services/textExtractor.ts) ===================== -/

/-- `.replace(/\r\n/g, "\n")`: scan left to right, turning each CR-LF pair
into one LF. -/
def replaceCRLF : List Char → List Char
  | [] => []
  | [c] => [c]
  | a :: b :: rest =>
    if a = '\r' ∧ b = '\n' then '\n' :: replaceCRLF rest
    else a :: replaceCRLF (b :: rest)

/-- `.replace(/\r/g, "\n")`. -/
def replaceCR (l : List Char) : List Char :=
  l.map (fun c => if c = '\r' then '\n' else c)

/-- Emit a pending run of `n` newlines: runs of three or more collapse to two
(`.replace(/\n{3,}/g, "\n\n")`, the regex being greedy so each maximal run is
one match). -/
def emitNewlineRun (n : ℕ) : List Char :=
  List.replicate (min n 2) '\n'

/-- State-machine pass for `.replace(/\n{3,}/g, "\n\n")`; `run` is the length
of the newline run read so far. -/
def collapseNewlinesAux : ℕ → List Char → List Char
  | run, [] => emitNewlineRun run
  | run, c :: rest =>
    if c = '\n' then collapseNewlinesAux (run + 1) rest
    else emitNewlineRun run ++ (c :: collapseNewlinesAux 0 rest)

/-- `.replace(/\n{3,}/g, "\n\n")`. -/
def collapseNewlines (l : List Char) : List Char :=
  collapseNewlinesAux 0 l

/-- The `[ \t]` character class. -/
def isSpaceTab (c : Char) : Bool :=
  c == ' ' || c == '\t'

/-- `.replace(/[ \t]+/g, " ")`: each maximal run of spaces/tabs becomes one
space. -/
def collapseSpaceTab : List Char → List Char
  | [] => []
  | [a] => [if isSpaceTab a then ' ' else a]
  | a :: b :: rest =>
    if isSpaceTab a && isSpaceTab b then collapseSpaceTab (b :: rest)
    else (if isSpaceTab a then ' ' else a) :: collapseSpaceTab (b :: rest)

/-- The control-character class `[\x00-\x08\x0B-\x0C\x0E-\x1F\x7F]` stripped
after whitespace normalization (newlines and tabs survive). -/
def isStrippedControl (c : Char) : Bool :=
  (c.toNat ≤ 8) || (11 ≤ c.toNat && c.toNat ≤ 12) ||
  (14 ≤ c.toNat && c.toNat ≤ 31) || (c.toNat == 127)

/-- The whole normalization chain of `normalizeText` (textExtractor.ts lines
140-149): line-break normalization, newline collapsing, space/tab collapsing,
trim, then control-character stripping.  There is no length cap anywhere in
this chain. -/
def normalizeCore (text : List Char) : List Char :=
  (trimChars (collapseSpaceTab (collapseNewlines (replaceCR
    (replaceCRLF text))))).filter (fun c => !isStrippedControl c)

/-- Validation failures of `normalizeText`. -/
inductive NormError
  | invalidInput
  | tooShort (length : ℕ)
deriving DecidableEq

/-- `normalizeText` (textExtractor.ts lines 135-159): reject empty input,
normalize, reject results shorter than 50 characters.  The 200,000-character
cap of the spec does not appear here. -/
def normalizeText (text : List Char) : Except NormError (List Char) :=
  if text = [] then .error .invalidInput
  else
    let normalized := normalizeCore text
    if normalized.length < 50 then .error (.tooShort normalized.length)
    else .ok normalized

/- ===================== chunker (plagiarismChecker.ts lines 15-49) ===================== -/

/-- Characters per chunk. -/
def CHUNK_SIZE : ℕ := 1500

/-- Overlap between consecutive chunks. -/
def CHUNK_OVERLAP : ℕ := 200

/-- Chunks processed in parallel per batch. -/
def MAX_CONCURRENT_CHUNKS : ℕ := 3

/-- Cap on the number of chunks analysed per document. -/
def MAX_CHUNKS_TO_PROCESS : ℕ := 4

/-- The while-loop of `chunkText`, with `fuel` bounding the number of
iterations; the loop advances `startIndex` by 1300 each iteration, so
`text.length + 1` iterations can never be exhausted. -/
def chunkTextAux (text : List Char) : ℕ → ℕ → List TextChunk
  | 0, _ => []
  | fuel + 1, startIndex =>
    if startIndex < text.length then
      let endIndex := min (startIndex + CHUNK_SIZE) text.length
      let chunk : TextChunk :=
        { text := (text.drop startIndex).take (endIndex - startIndex)
          startIndex := startIndex
          endIndex := endIndex }
      let next := startIndex + (CHUNK_SIZE - CHUNK_OVERLAP)
      if endIndex = next then [chunk]
      else chunk :: chunkTextAux text fuel next
    else []

/-- `chunkText` (plagiarismChecker.ts lines 25-49). -/
def chunkText (text : List Char) : List TextChunk :=
  chunkTextAux text (text.length + 1) 0

/- ===================== aggregation (plagiarismChecker.ts lines 54-111) ===================== -/

/-- Stable insertion of a segment into a list already sorted by `startIndex`. -/
def insertSeg (x : SuspiciousSegment) : List SuspiciousSegment → List SuspiciousSegment
  | [] => [x]
  | y :: ys => if y.startIndex < x.startIndex then y :: insertSeg x ys else x :: y :: ys

/-- `[...segments].sort((a, b) => a.startIndex - b.startIndex)`.
`Array.prototype.sort` is a stable sort, and any stable sort by `startIndex`
has one possible output, so insertion sort reproduces it exactly. -/
def sortSegs : List SuspiciousSegment → List SuspiciousSegment
  | [] => []
  | x :: xs => insertSeg x (sortSegs xs)

/-- The merge loop of `calculatePlagiarismPercentage` (lines 73-86), carrying
the current range `[curStart, curEnd)` and the flushed total; the final range
is added on exit. -/
def mergeLoop : List SuspiciousSegment → ℤ → ℤ → ℤ → ℤ
  | [], curStart, curEnd, total => total + (curEnd - curStart)
  | seg :: rest, curStart, curEnd, total =>
    if seg.startIndex ≤ curEnd then
      mergeLoop rest curStart (max curEnd seg.endIndex) total
    else
      mergeLoop rest seg.startIndex seg.endIndex (total + (curEnd - curStart))

/-- `calculatePlagiarismPercentage` (plagiarismChecker.ts lines 54-92). -/
def calculatePlagiarismPercentage (textLength : ℚ)
    (suspiciousSegments : List SuspiciousSegment) : ℚ :=
  if textLength = 0 ∨ suspiciousSegments = [] then 0
  else
    match sortSegs suspiciousSegments with
    | [] => 0
    | s0 :: rest =>
      let totalSuspiciousChars := mergeLoop rest s0.startIndex s0.endIndex 0
      let percentage := ((totalSuspiciousChars : ℚ) / textLength) * 100
      min 100 (max 0 percentage)

/-- `determineRiskLevel` (plagiarismChecker.ts lines 97-111).  There is no
verdict-based escalation step in this function. -/
def determineRiskLevel (plagiarismPercentage aiLikelihood : ℚ) : RiskLevel :=
  let combinedScore := plagiarismPercentage * (6 / 10) + aiLikelihood * 100 * (4 / 10)
  if combinedScore ≥ 60 then .high
  else if combinedScore ≥ 30 then .medium
  else .low

/-- Report assembly at the end of `checkPlagiarism` (lines 343-379). -/
def buildReportCore (textLength : ℕ) (segments : List SuspiciousSegment)
    (aiLikelihood : ℚ) (aiVerdict : AIVerdict) (status : AnalysisStatus) :
    PlagiarismReportCore where
  normalizedTextLength := textLength
  plagiarismPercentage := calculatePlagiarismPercentage textLength segments
  riskLevel := determineRiskLevel
    (calculatePlagiarismPercentage textLength segments) aiLikelihood
  suspiciousSegments := segments
  aiGeneratedLikelihood := aiLikelihood
  aiVerdict := aiVerdict
  analysisStatus := status

/- ===================== concurrency controller (plagiarismChecker.ts lines 180-263) ===================== -/

/-- Observable outcome of one chunk's `searchWebForChunk` +
`scoreChunkAgainstSources` round trip: either a scoring result or a thrown
error with message `msg`. -/
inductive ChunkNetOutcome
  | scored (suspicious : Bool) (similarityScore : ℚ) (srcMatches : List SourceMatch)
  | errored (msg : String)

/-- The critical-error test of the per-chunk catch (lines 233-235). -/
def isFatalChunkError (msg : String) : Bool :=
  hasSub msg "BAD_REQUEST" || hasSub msg "UPSTREAM_ERROR"

/-- Segment construction for a suspicious chunk (lines 206-217). -/
def mkSegment (chunk : TextChunk) (score : ℚ) (srcMatches : List SourceMatch) :
    SuspiciousSegment where
  startIndex := chunk.startIndex
  endIndex := chunk.endIndex
  textPreview := trimChars (chunk.text.take 100)
  similarityScore := score
  sources := srcMatches

/-- One chunk callback (lines 196-246): a fatal-class error message re-throws;
a non-fatal error is recorded and, unless it is an `UPSTREAM_WARNING`,
counted as unscored. -/
def perChunkResult (chunk : TextChunk) (out : ChunkNetOutcome) :
    Except String (Option SuspiciousSegment × ℕ × List String) :=
  match out with
  | .scored suspicious score srcMatches =>
    .ok (if suspicious && !srcMatches.isEmpty
      then some (mkSegment chunk score srcMatches) else none, 0, [])
  | .errored msg =>
    if isFatalChunkError msg then .error msg
    else .ok (none, if hasSub msg "UPSTREAM_WARNING" then 0 else 1, [msg])

/-- One `Promise.all` batch: results are accumulated in list order (the JS
completion order is nondeterministic, but the caller sorts segments at the
end, so list order is an admissible schedule) and the first rejection wins. -/
def runBatch (out : ℕ → ChunkNetOutcome) :
    List TextChunk → ℕ → Except String (List SuspiciousSegment × ℕ × List String)
  | [], _ => .ok ([], 0, [])
  | c :: cs, i =>
    match perChunkResult c (out i) with
    | .error e => .error e
    | .ok (segOpt, u, es) =>
      match runBatch out cs (i + 1) with
      | .error e => .error e
      | .ok (segs, us, ess) => .ok (segOpt.toList ++ segs, u + us, es ++ ess)

/-- The batch loop of `processChunksConcurrently` (lines 192-257); `fuel`
bounds the number of batches and `chunks.length + 1` always suffices because
each batch consumes `MAX_CONCURRENT_CHUNKS > 0` chunks. -/
def processChunksLoop (out : ℕ → ChunkNetOutcome) :
    ℕ → List TextChunk → ℕ → Except String (List SuspiciousSegment × ℕ × List String)
  | 0, _, _ => .ok ([], 0, [])
  | _ + 1, [], _ => .ok ([], 0, [])
  | fuel + 1, c :: cs, i =>
    match runBatch out ((c :: cs).take MAX_CONCURRENT_CHUNKS) i with
    | .error e => .error e
    | .ok (segs, u, es) =>
      match processChunksLoop out fuel ((c :: cs).drop MAX_CONCURRENT_CHUNKS)
          (i + MAX_CONCURRENT_CHUNKS) with
      | .error e => .error e
      | .ok (segs2, u2, es2) => .ok (segs ++ segs2, u + u2, es ++ es2)

/-- `processChunksConcurrently` (lines 180-263): run the batches, then sort
the collected segments by start index. -/
def processChunksConcurrentlyM (out : ℕ → ChunkNetOutcome)
    (chunks : List TextChunk) :
    Except String (List SuspiciousSegment × ℕ × List String) :=
  match processChunksLoop out (chunks.length + 1) chunks 0 with
  | .error e => .error e
  | .ok (segs, u, es) => .ok (sortSegs segs, u, es)

/- ===================== checkPlagiarism (plagiarismChecker.ts lines 269-379) ===================== -/

/-- Observable behaviour of the collaborator calls made by one
`checkPlagiarism` run: the extraction result, the per-chunk network outcomes
(indexed by chunk position), and the AI-classification outcome. -/
structure StageOracle where
  extraction : Except String (List Char)
  chunkOutcomes : ℕ → ChunkNetOutcome
  aiOutcome : Except String AIDetectionResult

/-- Extraction-error rewrapping (lines 274-287): a message already carrying a
`BAD_REQUEST`/`EXTRACTION_ERROR` marker is re-thrown as-is, anything else
gets the `EXTRACTION_ERROR: ` marker. -/
def extractionWrap (e : String) : String :=
  if hasSub e "BAD_REQUEST" || hasSub e "EXTRACTION_ERROR" then e
  else "EXTRACTION_ERROR: " ++ e

/-- `checkPlagiarism` (lines 269-379).  In the catch around the chunk
processing (lines 312-322) the local `segments` array is still empty, so the
partial-results branch is unreachable and the error is always re-thrown with
the `UPSTREAM_ERROR: ` marker prefixed — even when the underlying message
already carries a `BAD_REQUEST:` marker. -/
def checkPlagiarismM (o : StageOracle) : Except String PlagiarismReportCore :=
  match o.extraction with
  | .error e => .error (extractionWrap e)
  | .ok fullText =>
    let textLength := fullText.length
    let chunks := chunkText fullText
    let chunksToProcess := chunks.take MAX_CHUNKS_TO_PROCESS
    let wasLimited := chunksToProcess.length < chunks.length
    match processChunksConcurrentlyM o.chunkOutcomes chunksToProcess with
    | .error e => .error ("UPSTREAM_ERROR: " ++ e)
    | .ok (segments, unscoredCount, upstreamErrors) =>
      let statusAfterChunks : AnalysisStatus :=
        if unscoredCount > 0 ∨ wasLimited ∨ upstreamErrors ≠ [] then
          .partial_success
        else .success
      match o.aiOutcome with
      | .ok aiResult =>
        .ok (buildReportCore textLength segments aiResult.likelihood
          aiResult.verdict statusAfterChunks)
      | .error _ =>
        .ok (buildReportCore textLength segments (1 / 2) .uncertain
          (if statusAfterChunks = .success then .partial_success
           else statusAfterChunks))

/-- The `checkPlagiarism` call outcome fed to the orchestrator. -/
def checkOutcomeOf (o : StageOracle) : CheckOutcome :=
  match checkPlagiarismM o with
  | .ok r => .retOk r
  | .error e => .thrown e

/-- The composed pipeline: `runPlagiarismPipeline` delegating to
`checkPlagiarism`, with the collaborators' behaviour given by the oracle. -/
def runPipelineM (input : JsInput) (o : StageOracle) : PipelineResult :=
  runPlagiarismPipeline input (checkOutcomeOf o)

/- ===================== collaborator error messages (webSearch.ts) ===================== -/

/-- The error thrown by `searchWebForChunk` when `SEARCH_API_KEY` is absent
(webSearch.ts line 18). -/
def missingSearchKeyMsg : String := "BAD_REQUEST: Missing SEARCH_API_KEY on server."

/-- The error thrown by `searchWebForChunk` on an HTTP 503 response
(webSearch.ts line 60). -/
def serp503Msg : String := "UPSTREAM_ERROR: SerpAPI request failed: 503"

/- ===================== retry executor (retry.ts lines 9-60) ===================== -/

/-- The retryable-error test of `retryWithBackoff` (lines 30-39). -/
def isRetryableError (msg : String) : Bool :=
  hasSub msg "network" || hasSub msg "timeout" || hasSub msg "502" ||
  hasSub msg "500" || hasSub msg "503" || hasSub msg "504" ||
  hasSub msg "429" || hasSub msg "ECONNRESET" || hasSub msg "ETIMEDOUT"

/-- The attempt loop of `retryWithBackoff`.  `fn n` is the outcome of the
`n`-th invocation, `rand n` the `Math.random()` draw used for that attempt's
jitter; the second argument is `maxRetries - attempt`, so it is `0` exactly
on the final attempt, where the error is re-thrown without classification.
The result carries the invocation count and the list of sleep durations. -/
def retryAux {α : Type} (fn : ℕ → Except String α) (rand : ℕ → ℚ)
    (initialDelay maxDelay : ℚ) : ℕ → ℕ → Except String α × ℕ × List ℚ
  | attempt, 0 => (fn attempt, 1, [])
  | attempt, r + 1 =>
    match fn attempt with
    | .ok v => (.ok v, 1, [])
    | .error e =>
      if isRetryableError e then
        let delay := min (initialDelay * 2 ^ attempt) maxDelay
        let finalDelay := delay + rand attempt * (3 / 10) * delay
        let rest := retryAux fn rand initialDelay maxDelay (attempt + 1) r
        (rest.1, rest.2.1 + 1, finalDelay :: rest.2.2)
      else (.error e, 1, [])

/-- `retryWithBackoff` (retry.ts lines 9-60): attempts run from 0 to
`maxRetries` inclusive; the trailing `throw lastError` after the loop is
unreachable because the final attempt always returns or throws. -/
def retryWithBackoff {α : Type} (fn : ℕ → Except String α) (maxRetries : ℕ)
    (initialDelay maxDelay : ℚ) (rand : ℕ → ℚ) :
    Except String α × ℕ × List ℚ :=
  retryAux fn rand initialDelay maxDelay 0 maxRetries

/- ===================== weighted variant (the alternate checkPlagiarism) ===================== -/

/-- Risk level of the weighted-average variant (alternate checker lines
229-236): thresholds on the raw percentage, not on a blend. -/
def riskLevelFromPercentageVariant (plagiarismPercentage : ℚ) : RiskLevel :=
  if plagiarismPercentage < 20 then .low
  else if plagiarismPercentage < 50 then .medium
  else .high

/-- One-level risk escalation of the weighted-average variant (alternate
checker lines 276-283): applied when the AI verdict is `likely_ai` with
likelihood above 0.7. -/
def adjustRiskForAI (risk : RiskLevel) (ai : AIDetectionResult) : RiskLevel :=
  if ai.verdict = .likely_ai ∧ ai.likelihood > 7 / 10 then
    match risk with
    | .low => .medium
    | .medium => .high
    | .high => .high
  else risk

/- ===================== helper lemmas ===================== -/

/-- A list always starts with itself. -/
theorem leadsChars_self_append (pre rest : List Char) :
    leadsChars pre (pre ++ rest) = true := by
  induction pre with
  | nil => simp [leadsChars]
  | cons a t ih => simp [leadsChars, ih]

/-- `backoffBaseDelay` is the deterministic part of one retry sleep. -/
def backoffBaseDelay (initialDelay maxDelay : ℚ) (attempt : ℕ) : ℚ :=
  min (initialDelay * 2 ^ attempt) maxDelay

/-- The jitter added on top of `backoffBaseDelay` for a given random draw. -/
def backoffJitter (initialDelay maxDelay : ℚ) (rand : ℕ → ℚ) (attempt : ℕ) : ℚ :=
  rand attempt * (3 / 10) * backoffBaseDelay initialDelay maxDelay attempt

/- ===================== claim C8 ===================== -/

/-- C8: the retry executor.  With `maxAttempts = 3`, a function failing with a
retryable error on attempts 0 and 1 and succeeding on attempt 2 yields the
success value after exactly 3 invocations, sleeping
`min(initialDelay·2^a, maxDelay)` plus a jitter of at most 30% of that value
before each retry; a function that always fails with a non-retryable
(fatal-class) error is invoked exactly once and its error propagates with no
sleep at all. -/
theorem c8_retry_executor {α : Type} (initialDelay maxDelay : ℚ) (rand : ℕ → ℚ)
    (h0 : 0 ≤ initialDelay) (hM : 0 ≤ maxDelay)
    (hrand : ∀ i, 0 ≤ rand i ∧ rand i < 1)
    (fn : ℕ → Except String α) (v : α) (e0 e1 : String)
    (hf0 : fn 0 = .error e0) (hf1 : fn 1 = .error e1)
    (hr0 : isRetryableError e0 = true) (hr1 : isRetryableError e1 = true)
    (hf2 : fn 2 = .ok v)
    (g : ℕ → Except String α) (e : String)
    (hg : ∀ i, g i = .error e) (hfe : isRetryableError e = false)
    (maxR : ℕ) :
    retryWithBackoff fn 3 initialDelay maxDelay rand =
      (.ok v, 3,
        [backoffBaseDelay initialDelay maxDelay 0 +
           backoffJitter initialDelay maxDelay rand 0,
         backoffBaseDelay initialDelay maxDelay 1 +
           backoffJitter initialDelay maxDelay rand 1]) ∧
    (∀ a : ℕ, 0 ≤ backoffJitter initialDelay maxDelay rand a ∧
      backoffJitter initialDelay maxDelay rand a ≤
        (3 / 10) * backoffBaseDelay initialDelay maxDelay a) ∧
    retryWithBackoff g maxR initialDelay maxDelay rand = (.error e, 1, []) := by
  refine ⟨?_, ?_, ?_⟩
  · simp [retryWithBackoff, retryAux, hf0, hf1, hf2, hr0, hr1,
      backoffBaseDelay, backoffJitter]
  · intro a
    have hbase : 0 ≤ backoffBaseDelay initialDelay maxDelay a := by
      unfold backoffBaseDelay
      exact le_min (mul_nonneg h0 (by positivity)) hM
    constructor
    · unfold backoffJitter
      exact mul_nonneg (mul_nonneg (hrand a).1 (by norm_num)) hbase
    · unfold backoffJitter
      nlinarith [(hrand a).1, (hrand a).2, hbase]
  · cases maxR with
    | zero => simp [retryWithBackoff, retryAux, hg 0]
    | succ r => simp [retryWithBackoff, retryAux, hg 0, hfe]

/-- C8 witness: a concrete run with `initialDelay = 500`, `maxDelay = 5000`,
a half-unit random draw, a function failing twice with a timeout, and a
function always failing with a fatal error. -/
theorem c8_retry_executor_witness :
    retryWithBackoff (fun i => if i < 2 then .error "timeout" else .ok 7) 3
        500 5000 (fun _ => 1 / 2) =
      (.ok 7, 3,
        [backoffBaseDelay 500 5000 0 + backoffJitter 500 5000 (fun _ => 1 / 2) 0,
         backoffBaseDelay 500 5000 1 + backoffJitter 500 5000 (fun _ => 1 / 2) 1]) ∧
    (∀ a : ℕ, 0 ≤ backoffJitter 500 5000 (fun _ => 1 / 2) a ∧
      backoffJitter 500 5000 (fun _ => 1 / 2) a ≤
        (3 / 10) * backoffBaseDelay 500 5000 a) ∧
    retryWithBackoff (fun _ => (.error "BAD_REQUEST: boom" : Except String ℕ)) 4
        500 5000 (fun _ => 1 / 2) = (.error "BAD_REQUEST: boom", 1, []) :=
  c8_retry_executor 500 5000 (fun _ => 1 / 2) (by norm_num) (by norm_num)
    (fun _ => ⟨by norm_num, by norm_num⟩)
    (fun i => if i < 2 then .error "timeout" else .ok 7) 7 "timeout" "timeout"
    rfl rfl (by decide) (by decide) rfl
    (fun _ => .error "BAD_REQUEST: boom") "BAD_REQUEST: boom"
    (fun _ => rfl) (by decide) 4

/- ===================== claim C10 ===================== -/

/-- C10: `getAICacheKey` hashes only the first 1000 characters, so any two
documents whose truncated-and-trimmed texts share that 1000-character head
get the same cache key, and the whole-document AI-authorship cache lookup
returns the same cached entry for both. -/
theorem c10_ai_cache_key_head_only (t1 t2 : List Char)
    (h : (aiTextToAnalyze t1).take 1000 = (aiTextToAnalyze t2).take 1000) :
    getAICacheKey (aiTextToAnalyze t1) = getAICacheKey (aiTextToAnalyze t2) ∧
    (∀ cache : String → Option AIDetectionResult,
      aiCacheLookup cache t1 = aiCacheLookup cache t2) ∧
    (∀ s1 s2 : List Char, s1.take 1000 = s2.take 1000 →
      getAICacheKey s1 = getAICacheKey s2) := by
  have key : ∀ s1 s2 : List Char, s1.take 1000 = s2.take 1000 →
      getAICacheKey s1 = getAICacheKey s2 := by
    intro s1 s2 hs
    unfold getAICacheKey
    rw [hs]
  refine ⟨key _ _ h, fun cache => ?_, key⟩
  unfold aiCacheLookup
  rw [key _ _ h]

/-- Dropping a leading run of a non-matching character is the identity. -/
theorem dropWhile_replicate_of_false (p : Char → Bool) (c : Char) (n : ℕ)
    (h : p c = false) :
    (List.replicate n c).dropWhile p = List.replicate n c := by
  cases n with
  | zero => rfl
  | succ m => simp [List.replicate_succ, List.dropWhile, h]

/-- Trimming a run of a non-whitespace character is the identity. -/
theorem trimChars_replicate_of_nonspace (c : Char) (n : ℕ)
    (h : isJsSpace c = false) :
    trimChars (List.replicate n c) = List.replicate n c := by
  unfold trimChars
  rw [dropWhile_replicate_of_false _ _ _ h, List.reverse_replicate,
    dropWhile_replicate_of_false _ _ _ h, List.reverse_replicate]

/-- `aiTextToAnalyze` on a run of a plain letter is the identity while the
run is within the 200k cap. -/
theorem aiTextToAnalyze_replicate_b (n : ℕ) (h : n ≤ AI_MAX_TEXT_LENGTH) :
    aiTextToAnalyze (List.replicate n 'b') = List.replicate n 'b' := by
  unfold aiTextToAnalyze
  rw [List.take_replicate, Nat.min_eq_right h,
    trimChars_replicate_of_nonspace _ _ (by decide)]

/-- C10 witness: a 1000-character document and a 1001-character document
sharing the same 1000-character head share the AI cache key and every cache
lookup. -/
theorem c10_ai_cache_key_head_only_witness :
    getAICacheKey (aiTextToAnalyze (List.replicate 1000 'b')) =
      getAICacheKey (aiTextToAnalyze (List.replicate 1001 'b')) ∧
    (∀ cache : String → Option AIDetectionResult,
      aiCacheLookup cache (List.replicate 1000 'b') =
        aiCacheLookup cache (List.replicate 1001 'b')) ∧
    (∀ s1 s2 : List Char, s1.take 1000 = s2.take 1000 →
      getAICacheKey s1 = getAICacheKey s2) :=
  c10_ai_cache_key_head_only (List.replicate 1000 'b') (List.replicate 1001 'b')
    (by
      rw [aiTextToAnalyze_replicate_b 1000 (by norm_num [AI_MAX_TEXT_LENGTH]),
        aiTextToAnalyze_replicate_b 1001 (by norm_num [AI_MAX_TEXT_LENGTH]),
        List.take_replicate, List.take_replicate]
      norm_num)

/-- Texts shorter than the chunk stride produce exactly one chunk covering
the whole text. -/
theorem chunkText_short (text : List Char) (h0 : text ≠ []) (h1 : text.length < 1300) :
    chunkText text = [⟨text, 0, text.length⟩] := by
  unfold chunkText
  obtain ⟨n, hl⟩ : ∃ n, text.length = n + 1 := by
    cases hx : text.length with
    | zero => exact absurd (List.length_eq_zero.mp hx) h0
    | succ n => exact ⟨n, rfl⟩
  rw [hl]
  show chunkTextAux text (n + 2) 0 = _
  rw [chunkTextAux]
  simp only [CHUNK_SIZE, CHUNK_OVERLAP]
  rw [if_pos (by omega : 0 < text.length)]
  have hmin : min (0 + 1500) text.length = text.length := by omega
  rw [hmin]
  rw [if_neg (by omega : ¬ text.length = 0 + (1500 - 200))]
  rw [chunkTextAux]
  rw [if_neg (by omega : ¬ 0 + (1500 - 200) < text.length)]
  simp [hl]

/- ===================== claim C2 ===================== -/

/-- The threshold rule always produces a verdict consistent with the
likelihood it was derived from. -/
theorem deriveVerdict_consistent (l : ℚ) : consistentVerdict l (deriveVerdict l) := by
  unfold consistentVerdict deriveVerdict
  split_ifs with h1 h2
  · exact ⟨fun _ => rfl, fun h => absurd h (by intro h; linarith),
      fun _ h => absurd h (by linarith)⟩
  · exact ⟨fun h => absurd h h1, fun _ => rfl,
      fun h _ => absurd h (by linarith)⟩
  · exact ⟨fun h => absurd h h1, fun h => absurd h h2, fun _ _ => rfl⟩

/-- Oracle for a run whose classifier responds with likelihood 0.9 but
verdict string `"likely_human"`: a 100-character text, no matching sources. -/
def c2Oracle : StageOracle where
  extraction := .ok (List.replicate 100 'a')
  chunkOutcomes := fun _ => .scored false 0 []
  aiOutcome := .ok (aiParseOutcome (9 / 10) "likely_human")

/-- C2 counterexample: a run that produces a report whose
`aiGeneratedLikelihood` is 0.9 yet whose `aiVerdict` is `likely_human`,
because the detector keeps a recognised verdict string even when it
contradicts the likelihood; the claimed threshold-consistency is false for
this report. -/
theorem c2_counterexample :
    checkPlagiarismM c2Oracle =
      .ok (buildReportCore 100 [] (9 / 10) .likely_human .success) ∧
    (buildReportCore 100 [] (9 / 10) .likely_human .success).aiGeneratedLikelihood
      = 9 / 10 ∧
    (buildReportCore 100 [] (9 / 10) .likely_human .success).aiVerdict
      = .likely_human ∧
    ¬ consistentVerdict (9 / 10) AIVerdict.likely_human := by
  refine ⟨?_, rfl, rfl, ?_⟩
  · have hchunks : chunkText (List.replicate 100 'a') =
        [⟨List.replicate 100 'a', 0, 100⟩] := by
      rw [chunkText_short (List.replicate 100 'a') (by decide) (by simp)]
      simp
    unfold checkPlagiarismM c2Oracle
    simp only [hchunks]
    simp [processChunksConcurrentlyM, processChunksLoop, runBatch, perChunkResult,
      MAX_CHUNKS_TO_PROCESS, MAX_CONCURRENT_CHUNKS, sortSegs,
      aiParseOutcome, verdictOfString, clampLikelihood]
    norm_num
  · intro hc
    exact absurd (hc.1 (by norm_num)) (by decide)

/-- C2 amended: the detector re-derives the verdict from the (clamped)
likelihood — and is then threshold-consistent — only when the classifier's
verdict string is unrecognised; a recognised verdict string is kept verbatim
even when it contradicts the likelihood; the report copies the detector's
likelihood/verdict pair unchanged, and the 0.5/uncertain default used when
classification fails is threshold-consistent. -/
theorem c2_amended_verdict_policy (rawL : ℚ) (rawV : String)
    (L : ℕ) (segs : List SuspiciousSegment) (a : ℚ) (v : AIVerdict)
    (st : AnalysisStatus) :
    (verdictOfString rawV = none →
      (aiParseOutcome rawL rawV).verdict = deriveVerdict (clampLikelihood rawL) ∧
      consistentVerdict (aiParseOutcome rawL rawV).likelihood
        (aiParseOutcome rawL rawV).verdict) ∧
    (∀ w, verdictOfString rawV = some w → (aiParseOutcome rawL rawV).verdict = w) ∧
    (buildReportCore L segs a v st).aiGeneratedLikelihood = a ∧
    (buildReportCore L segs a v st).aiVerdict = v ∧
    consistentVerdict ((1 : ℚ) / 2) .uncertain := by
  refine ⟨fun h => ⟨?_, ?_⟩, fun w hw => ?_, rfl, rfl, ?_⟩
  · simp [aiParseOutcome, h]
  · have hv : (aiParseOutcome rawL rawV).verdict =
        deriveVerdict (clampLikelihood rawL) := by simp [aiParseOutcome, h]
    have hl : (aiParseOutcome rawL rawV).likelihood = clampLikelihood rawL := rfl
    rw [hv, hl]
    exact deriveVerdict_consistent _
  · simp [aiParseOutcome, hw]
  · unfold consistentVerdict
    refine ⟨fun h => ?_, fun h => ?_, fun _ _ => rfl⟩
    · norm_num at h
    · norm_num at h

/-- C2 amended witness: concrete invalid verdict string `"bogus"` with
likelihood 0.9, and a concrete report copy. -/
theorem c2_amended_verdict_policy_witness :
    (verdictOfString "bogus" = none →
      (aiParseOutcome (9 / 10) "bogus").verdict =
        deriveVerdict (clampLikelihood (9 / 10)) ∧
      consistentVerdict (aiParseOutcome (9 / 10) "bogus").likelihood
        (aiParseOutcome (9 / 10) "bogus").verdict) ∧
    (∀ w, verdictOfString "bogus" = some w →
      (aiParseOutcome (9 / 10) "bogus").verdict = w) ∧
    (buildReportCore 100 [] (1 / 2) .uncertain .success).aiGeneratedLikelihood
      = 1 / 2 ∧
    (buildReportCore 100 [] (1 / 2) .uncertain .success).aiVerdict = .uncertain ∧
    consistentVerdict ((1 : ℚ) / 2) .uncertain :=
  c2_amended_verdict_policy (9 / 10) "bogus" 100 [] (1 / 2) .uncertain .success

/- ===================== claim C6 ===================== -/

/-- The risk rule as the claim states it: blend-based level, then one-level
escalation for a high-likelihood `likely_ai` verdict. -/
def claimedRiskLevel (pct : ℚ) (ai : AIDetectionResult) : RiskLevel :=
  adjustRiskForAI (determineRiskLevel pct ai.likelihood) ai

/-- C6 counterexample: for a report with no plagiarism coverage and an AI
result of `likely_ai` at likelihood 0.8, the pipeline's report carries risk
`medium` (blend = 32), while the claimed blend-plus-escalation rule yields
`high`; the pipeline's `determineRiskLevel` has no escalation step. -/
theorem c6_counterexample :
    (buildReportCore 100 [] (8 / 10) .likely_ai .success).riskLevel = .medium ∧
    claimedRiskLevel
      (buildReportCore 100 [] (8 / 10) .likely_ai .success).plagiarismPercentage
      ⟨8 / 10, .likely_ai⟩ = .high ∧
    RiskLevel.medium ≠ RiskLevel.high := by
  refine ⟨?_, ?_, by decide⟩
  · simp only [buildReportCore]
    norm_num [calculatePlagiarismPercentage, determineRiskLevel]
  · simp only [buildReportCore, claimedRiskLevel]
    norm_num [calculatePlagiarismPercentage, determineRiskLevel, adjustRiskForAI]

/-- C6 amended: the report's risk level is the weighted blend
`percentage·0.6 + likelihood·100·0.4` thresholded at ≥ 60 → high,
≥ 30 → medium, else low, with no escalation — it does not depend on the
verdict at all; the one-level `likely_ai` escalation exists only in the
alternate weighted-average checker, where it modifies a base level obtained
from raw-percentage thresholds (< 20 → low, < 50 → medium, else high). -/
theorem c6_amended_risk_rule (L : ℕ) (segs : List SuspiciousSegment)
    (a : ℚ) (v1 v2 : AIVerdict) (st1 st2 : AnalysisStatus)
    (risk : RiskLevel) (ai : AIDetectionResult) :
    (buildReportCore L segs a v1 st1).riskLevel =
      (buildReportCore L segs a v2 st2).riskLevel ∧
    (buildReportCore L segs a v1 st1).riskLevel =
      (if 60 ≤ calculatePlagiarismPercentage (L : ℚ) segs * (6 / 10) +
          a * 100 * (4 / 10) then .high
       else if 30 ≤ calculatePlagiarismPercentage (L : ℚ) segs * (6 / 10) +
          a * 100 * (4 / 10) then .medium
       else .low) ∧
    (ai.verdict = .likely_ai → ai.likelihood > 7 / 10 →
      adjustRiskForAI risk ai =
        (match risk with
         | .low => .medium
         | .medium => .high
         | .high => .high)) ∧
    ((¬ (ai.verdict = .likely_ai ∧ ai.likelihood > 7 / 10)) →
      adjustRiskForAI risk ai = risk) := by
  refine ⟨rfl, rfl, fun h1 h2 => ?_, fun h => ?_⟩
  · unfold adjustRiskForAI
    rw [if_pos ⟨h1, h2⟩]
  · unfold adjustRiskForAI
    rw [if_neg h]

/-- C6 amended witness: concrete report at percentage 0 and likelihood 0.8,
and the variant escalation applied to a `medium` base. -/
theorem c6_amended_risk_rule_witness :
    (buildReportCore 100 [] (8 / 10) .likely_ai .success).riskLevel =
      (buildReportCore 100 [] (8 / 10) .likely_human .partial_success).riskLevel ∧
    (buildReportCore 100 [] (8 / 10) .likely_ai .success).riskLevel =
      (if 60 ≤ calculatePlagiarismPercentage ((100 : ℕ) : ℚ) [] * (6 / 10) +
          (8 / 10 : ℚ) * 100 * (4 / 10) then .high
       else if 30 ≤ calculatePlagiarismPercentage ((100 : ℕ) : ℚ) [] * (6 / 10) +
          (8 / 10 : ℚ) * 100 * (4 / 10) then .medium
       else .low) ∧
    ((AIDetectionResult.mk (8 / 10) .likely_ai).verdict = .likely_ai →
      (AIDetectionResult.mk (8 / 10) .likely_ai).likelihood > 7 / 10 →
      adjustRiskForAI .medium (AIDetectionResult.mk (8 / 10) .likely_ai) =
        (match RiskLevel.medium with
         | .low => .medium
         | .medium => .high
         | .high => .high)) ∧
    ((¬ ((AIDetectionResult.mk (8 / 10) .likely_ai).verdict = .likely_ai ∧
        (AIDetectionResult.mk (8 / 10) .likely_ai).likelihood > 7 / 10)) →
      adjustRiskForAI .medium (AIDetectionResult.mk (8 / 10) .likely_ai) = .medium) :=
  c6_amended_risk_rule 100 [] (8 / 10) .likely_ai .likely_human .success
    .partial_success .medium ⟨8 / 10, .likely_ai⟩

/- ===================== claim C7 ===================== -/

/-- Some nonempty text always produces at least one chunk. -/
theorem chunkText_ne_nil (text : List Char) (h0 : text ≠ []) :
    ∃ c cs, chunkText text = c :: cs := by
  unfold chunkText
  obtain ⟨n, hl⟩ : ∃ n, text.length = n + 1 := by
    cases hx : text.length with
    | zero => exact absurd (List.length_eq_zero.mp hx) h0
    | succ n => exact ⟨n, rfl⟩
  rw [hl]
  show ∃ c cs, chunkTextAux text (n + 2) 0 = c :: cs
  rw [chunkTextAux]
  rw [if_pos (by omega : 0 < text.length)]
  by_cases hb : min (0 + CHUNK_SIZE) text.length = 0 + (CHUNK_SIZE - CHUNK_OVERLAP)
  · exact ⟨_, [], by rw [if_pos hb]⟩
  · exact ⟨_, _, by rw [if_neg hb]⟩

/-- Is a chunk outcome a thrown fatal-class error? -/
def isFatalOutcome : ChunkNetOutcome → Bool
  | .errored m => isFatalChunkError m
  | .scored _ _ _ => false

/-- A batch whose head chunk throws a fatal-class error rejects with exactly
that error. -/
theorem runBatch_fatal_head (out : ℕ → ChunkNetOutcome) (c : TextChunk)
    (cs : List TextChunk) (i : ℕ) (m : String)
    (hout : out i = .errored m) (hf : isFatalChunkError m = true) :
    runBatch out (c :: cs) i = .error m := by
  simp [runBatch, perChunkResult, hout, hf]

/-- A chunk list whose head chunk throws a fatal-class error aborts the whole
controller with that error. -/
theorem processChunks_fatal_head (out : ℕ → ChunkNetOutcome) (c : TextChunk)
    (cs : List TextChunk) (m : String)
    (hout : out 0 = .errored m) (hf : isFatalChunkError m = true) :
    processChunksConcurrentlyM out (c :: cs) = .error m := by
  unfold processChunksConcurrentlyM
  have hloop : processChunksLoop out ((c :: cs).length + 1) (c :: cs) 0 = .error m := by
    show processChunksLoop out (cs.length + 1 + 1) (c :: cs) 0 = .error m
    rw [processChunksLoop]
    rw [show MAX_CONCURRENT_CHUNKS = 2 + 1 from rfl, List.take_succ_cons]
    rw [runBatch_fatal_head out c _ 0 m hout hf]
  rw [hloop]

/-- The valid text input used by the end-to-end runs. -/
def plainTextInput : JsInput := .obj (some "essay text") false

/-- Collaborator behaviour when `SEARCH_API_KEY` is absent: extraction
succeeds, and every chunk's `searchWebForChunk` throws the `BAD_REQUEST:`
missing-credential error (webSearch.ts line 18) before any network call. -/
def searchKeyMissingOracle (text : List Char) : StageOracle where
  extraction := .ok text
  chunkOutcomes := fun _ => .errored missingSearchKeyMsg
  aiOutcome := .ok ⟨1 / 2, .uncertain⟩

/-- C7: evaluation of the run with the search credential absent.  The missing
credential is thrown as a `BAD_REQUEST:` error — and the orchestrator would
classify that marker as `bad_request` (last conjunct) — but the catch in
`checkPlagiarism` re-wraps it as `UPSTREAM_ERROR: BAD_REQUEST: ...`, so the
pipeline reports `upstream_error`, not the `bad_request` the claim (and the
spec) require. -/
theorem c7_missing_search_key_run (text : List Char) (h0 : text ≠ []) :
    (runPipelineM plainTextInput (searchKeyMissingOracle text)).ok = false ∧
    (runPipelineM plainTextInput (searchKeyMissingOracle text)).errorType =
      some .upstream_error ∧
    (runPipelineM plainTextInput (searchKeyMissingOracle text)).errorType ≠
      some .bad_request ∧
    thrownErrorType missingSearchKeyMsg = .bad_request := by
  obtain ⟨c, cs, hc⟩ := chunkText_ne_nil text h0
  have hcheck : checkPlagiarismM (searchKeyMissingOracle text) =
      .error ("UPSTREAM_ERROR: " ++ missingSearchKeyMsg) := by
    unfold checkPlagiarismM searchKeyMissingOracle
    simp only [hc]
    rw [show MAX_CHUNKS_TO_PROCESS = 3 + 1 from rfl, List.take_succ_cons]
    rw [processChunks_fatal_head _ c _ missingSearchKeyMsg rfl (by decide)]
  have hres : runPipelineM plainTextInput (searchKeyMissingOracle text) =
      classifyThrown ("UPSTREAM_ERROR: " ++ missingSearchKeyMsg) := by
    unfold runPipelineM checkOutcomeOf
    rw [hcheck]
    rfl
  rw [hres]
  exact ⟨rfl, by decide, by decide, by decide⟩

/-- C7 witness: the concrete 100-character document. -/
theorem c7_missing_search_key_run_witness :
    (runPipelineM plainTextInput
      (searchKeyMissingOracle (List.replicate 100 'a'))).ok = false ∧
    (runPipelineM plainTextInput
      (searchKeyMissingOracle (List.replicate 100 'a'))).errorType =
        some .upstream_error ∧
    (runPipelineM plainTextInput
      (searchKeyMissingOracle (List.replicate 100 'a'))).errorType ≠
        some .bad_request ∧
    thrownErrorType missingSearchKeyMsg = .bad_request :=
  c7_missing_search_key_run (List.replicate 100 'a') (by decide)

/- ===================== claim C5 ===================== -/

/-- Mismatched head characters refute a `startsWith`. -/
theorem leadsChars_ne_head (a b : Char) (pre hay : List Char) (h : (a == b) = false) :
    leadsChars (a :: pre) (b :: hay) = false := by
  simp [leadsChars, h]

/-- Any message wrapped with the `UPSTREAM_ERROR: ` marker is classified as
`upstream_error` by the orchestrator, whatever the inner message is. -/
theorem thrownErrorType_upstream_wrap (e : String) :
    thrownErrorType ("UPSTREAM_ERROR: " ++ e) = .upstream_error := by
  have hB : startsWithStr ("UPSTREAM_ERROR: " ++ e) "BAD_REQUEST:" = false := by
    unfold startsWithStr
    rw [String.data_append,
      show "BAD_REQUEST:".data = 'B' :: "AD_REQUEST:".data from rfl,
      show "UPSTREAM_ERROR: ".data = 'U' :: "PSTREAM_ERROR: ".data from rfl,
      List.cons_append]
    exact leadsChars_ne_head _ _ _ _ rfl
  have hEx : startsWithStr ("UPSTREAM_ERROR: " ++ e) "EXTRACTION_ERROR:" = false := by
    unfold startsWithStr
    rw [String.data_append,
      show "EXTRACTION_ERROR:".data = 'E' :: "XTRACTION_ERROR:".data from rfl,
      show "UPSTREAM_ERROR: ".data = 'U' :: "PSTREAM_ERROR: ".data from rfl,
      List.cons_append]
    exact leadsChars_ne_head _ _ _ _ rfl
  have hU : startsWithStr ("UPSTREAM_ERROR: " ++ e) "UPSTREAM_ERROR:" = true := by
    unfold startsWithStr
    rw [String.data_append,
      show "UPSTREAM_ERROR: ".data = "UPSTREAM_ERROR:".data ++ [' '] from rfl,
      List.append_assoc]
    exact leadsChars_self_append _ _
  simp [thrownErrorType, hB, hEx, hU]

/-- A batch containing a fatal-class chunk error rejects with some error. -/
theorem runBatch_fatal (out : ℕ → ChunkNetOutcome) :
    ∀ (cs : List TextChunk) (i j : ℕ), j < cs.length →
      isFatalOutcome (out (i + j)) = true →
      ∃ e, runBatch out cs i = .error e := by
  intro cs
  induction cs with
  | nil => intro i j hj _; simp at hj
  | cons c cs ih =>
    intro i j hj hf
    by_cases h0 : isFatalOutcome (out i) = true
    · cases hout : out i with
      | scored s sc ms => rw [hout] at h0; simp [isFatalOutcome] at h0
      | errored m =>
        rw [hout] at h0
        simp only [isFatalOutcome] at h0
        exact ⟨m, by simp [runBatch, perChunkResult, hout, h0]⟩
    · obtain ⟨j', rfl⟩ : ∃ j', j = j' + 1 := by
        cases j with
        | zero => rw [Nat.add_zero] at hf; exact absurd hf h0
        | succ j' => exact ⟨j', rfl⟩
      obtain ⟨e, he⟩ := ih (i + 1) j' (by simpa using hj)
        (by rw [show i + 1 + j' = i + (j' + 1) by omega]; exact hf)
      cases hout : out i with
      | scored s sc ms =>
        exact ⟨e, by simp [runBatch, perChunkResult, hout, he]⟩
      | errored m =>
        have hm : isFatalChunkError m = false := by
          rw [hout] at h0; simpa [isFatalOutcome] using h0
        exact ⟨e, by simp [runBatch, perChunkResult, hout, hm, he]⟩

/-- A batch only consults the oracle at the indices of its own chunks. -/
theorem runBatch_agrees (out out2 : ℕ → ChunkNetOutcome) :
    ∀ (cs : List TextChunk) (i : ℕ),
      (∀ k, k < cs.length → out2 (i + k) = out (i + k)) →
      runBatch out2 cs i = runBatch out cs i := by
  intro cs
  induction cs with
  | nil => intro i _; rfl
  | cons c cs ih =>
    intro i h
    have h0 : out2 i = out i := by simpa using h 0 (by simp)
    have hrest : ∀ k, k < cs.length → out2 (i + 1 + k) = out (i + 1 + k) := by
      intro k hk
      have := h (k + 1) (by simpa using Nat.succ_lt_succ hk)
      rw [show i + (k + 1) = i + 1 + k by omega] at this
      exact this
    simp only [runBatch, h0, ih (i + 1) hrest]

/-- A fatal-class error on a chunk of the first batch aborts the whole
controller. -/
theorem processChunks_fatal_batch1 (out : ℕ → ChunkNetOutcome)
    (chunks : List TextChunk) (j : ℕ)
    (hj3 : j < MAX_CONCURRENT_CHUNKS) (hjl : j < chunks.length)
    (hf : isFatalOutcome (out j) = true) :
    ∃ e, processChunksConcurrentlyM out chunks = .error e := by
  obtain ⟨c, cs, rfl⟩ : ∃ c cs, chunks = c :: cs := by
    cases chunks with
    | nil => simp at hjl
    | cons c cs => exact ⟨c, cs, rfl⟩
  obtain ⟨e, he⟩ := runBatch_fatal out ((c :: cs).take MAX_CONCURRENT_CHUNKS) 0 j
    (by simp only [List.length_take]; simp only [MAX_CONCURRENT_CHUNKS] at hj3 ⊢; omega)
    (by simpa using hf)
  refine ⟨e, ?_⟩
  unfold processChunksConcurrentlyM
  have hloop : processChunksLoop out ((c :: cs).length + 1) (c :: cs) 0 = .error e := by
    show processChunksLoop out (cs.length + 1 + 1) (c :: cs) 0 = .error e
    rw [processChunksLoop, he]
  rw [hloop]

/-- With the first batch aborting, the controller's result is independent of
the oracle beyond the first batch. -/
theorem processChunks_agree_batch1 (out out2 : ℕ → ChunkNetOutcome)
    (chunks : List TextChunk)
    (hagree : ∀ k, k < MAX_CONCURRENT_CHUNKS → out2 k = out k)
    (j : ℕ) (hj3 : j < MAX_CONCURRENT_CHUNKS) (hjl : j < chunks.length)
    (hf : isFatalOutcome (out j) = true) :
    processChunksConcurrentlyM out2 chunks = processChunksConcurrentlyM out chunks := by
  obtain ⟨c, cs, rfl⟩ : ∃ c cs, chunks = c :: cs := by
    cases chunks with
    | nil => simp at hjl
    | cons c cs => exact ⟨c, cs, rfl⟩
  obtain ⟨e, he⟩ := runBatch_fatal out ((c :: cs).take MAX_CONCURRENT_CHUNKS) 0 j
    (by simp only [List.length_take]; simp only [MAX_CONCURRENT_CHUNKS] at hj3 ⊢; omega)
    (by simpa using hf)
  have hb2 : runBatch out2 ((c :: cs).take MAX_CONCURRENT_CHUNKS) 0 =
      runBatch out ((c :: cs).take MAX_CONCURRENT_CHUNKS) 0 := by
    apply runBatch_agrees
    intro k hk
    apply hagree
    have hlen : ((c :: cs).take MAX_CONCURRENT_CHUNKS).length ≤ MAX_CONCURRENT_CHUNKS := by
      simp [List.length_take]
    omega
  unfold processChunksConcurrentlyM
  have hloop : processChunksLoop out ((c :: cs).length + 1) (c :: cs) 0 = .error e := by
    show processChunksLoop out (cs.length + 1 + 1) (c :: cs) 0 = .error e
    rw [processChunksLoop, he]
  have hloop2 : processChunksLoop out2 ((c :: cs).length + 1) (c :: cs) 0 = .error e := by
    show processChunksLoop out2 (cs.length + 1 + 1) (c :: cs) 0 = .error e
    rw [processChunksLoop, hb2, he]
  rw [hloop, hloop2]

/-- Pointwise combination of two accumulated (segments, unscored, errors)
triples. -/
def combineTriple (a b : List SuspiciousSegment × ℕ × List String) :
    List SuspiciousSegment × ℕ × List String :=
  (a.1 ++ b.1, a.2.1 + b.2.1, a.2.2 ++ b.2.2)

/-- Batch-free specification of the per-chunk bookkeeping: walk the chunk
list once, collecting segments of suspicious scored chunks, counting
non-warning errors as unscored, and recording every error message. -/
def flatCollect (out : ℕ → ChunkNetOutcome) :
    List TextChunk → ℕ → List SuspiciousSegment × ℕ × List String
  | [], _ => ([], 0, [])
  | c :: cs, i =>
    let r := flatCollect out cs (i + 1)
    match out i with
    | .scored susp score ms =>
      ((if susp && !ms.isEmpty then [mkSegment c score ms] else []) ++ r.1,
        r.2.1, r.2.2)
    | .errored m =>
      (r.1, (if hasSub m "UPSTREAM_WARNING" then 0 else 1) + r.2.1, m :: r.2.2)

/-- A batch with no fatal-class error resolves to the flat bookkeeping over
its chunks. -/
theorem runBatch_no_fatal (out : ℕ → ChunkNetOutcome) :
    ∀ (cs : List TextChunk) (i : ℕ),
      (∀ k, k < cs.length → isFatalOutcome (out (i + k)) = false) →
      runBatch out cs i = .ok (flatCollect out cs i) := by
  intro cs
  induction cs with
  | nil => intro i _; rfl
  | cons c cs ih =>
    intro i h
    have h0 : isFatalOutcome (out i) = false := by simpa using h 0 (by simp)
    have hrest : ∀ k, k < cs.length → isFatalOutcome (out (i + 1 + k)) = false := by
      intro k hk
      have := h (k + 1) (by simpa using Nat.succ_lt_succ hk)
      rw [show i + (k + 1) = i + 1 + k by omega] at this
      exact this
    have hrec := ih (i + 1) hrest
    cases hout : out i with
    | scored s sc ms =>
      simp only [runBatch, perChunkResult, hout, hrec, flatCollect]
      by_cases hs : (s && !ms.isEmpty) = true
      · simp [hs]
      · simp [hs]
    | errored m =>
      have hm : isFatalChunkError m = false := by
        rw [hout] at h0; simpa [isFatalOutcome] using h0
      simp [runBatch, perChunkResult, hout, hm, hrec, flatCollect]

/-- The flat bookkeeping splits over list concatenation. -/
theorem flatCollect_append (out : ℕ → ChunkNetOutcome) :
    ∀ (xs ys : List TextChunk) (i : ℕ),
      flatCollect out (xs ++ ys) i =
        combineTriple (flatCollect out xs i) (flatCollect out ys (i + xs.length)) := by
  intro xs
  induction xs with
  | nil => intro ys i; simp [flatCollect, combineTriple]
  | cons c xs ih =>
    intro ys i
    have hrec := ih ys (i + 1)
    rw [show i + 1 + xs.length = i + (xs.length + 1) by omega] at hrec
    simp only [List.cons_append, flatCollect, hrec]
    cases hout : out i with
    | scored s sc ms => simp [hrec, combineTriple, List.append_assoc]
    | errored m => simp [hrec, combineTriple, Nat.add_assoc]

/-- The batch loop with no fatal-class error anywhere equals the flat
bookkeeping. -/
theorem processChunksLoop_no_fatal (out : ℕ → ChunkNetOutcome) :
    ∀ (fuel : ℕ) (chunks : List TextChunk) (i : ℕ),
      chunks.length < fuel →
      (∀ k, k < chunks.length → isFatalOutcome (out (i + k)) = false) →
      processChunksLoop out fuel chunks i = .ok (flatCollect out chunks i) := by
  intro fuel
  induction fuel with
  | zero => intro chunks i h _; omega
  | succ f ih =>
    intro chunks i hlen hnf
    cases chunks with
    | nil => rfl
    | cons c cs =>
      rw [processChunksLoop]
      have hb := runBatch_no_fatal out ((c :: cs).take MAX_CONCURRENT_CHUNKS) i
        (by
          intro k hk
          apply hnf
          have : ((c :: cs).take MAX_CONCURRENT_CHUNKS).length ≤ (c :: cs).length := by
            simp [List.length_take]
          omega)
      rw [hb]
      have hr := ih ((c :: cs).drop MAX_CONCURRENT_CHUNKS) (i + MAX_CONCURRENT_CHUNKS)
        (by
          rw [List.length_drop]
          have hlc : (c :: cs).length = cs.length + 1 := by simp
          rw [hlc] at hlen ⊢
          simp only [MAX_CONCURRENT_CHUNKS]
          omega)
        (by
          intro k hk
          rw [List.length_drop] at hk
          have hlc : (c :: cs).length = cs.length + 1 := by simp
          rw [hlc] at hk
          simp only [MAX_CONCURRENT_CHUNKS] at hk ⊢
          have hlt : 3 + k < (c :: cs).length := by rw [hlc]; omega
          have := hnf (3 + k) hlt
          rw [show i + (3 + k) = i + 3 + k by omega] at this
          exact this)
      rw [hr]
      have hsplit := flatCollect_append out ((c :: cs).take MAX_CONCURRENT_CHUNKS)
        ((c :: cs).drop MAX_CONCURRENT_CHUNKS) i
      rw [List.take_append_drop] at hsplit
      by_cases hge : MAX_CONCURRENT_CHUNKS ≤ (c :: cs).length
      · have hlc : (c :: cs).length = cs.length + 1 := by simp
        have hlen3 : ((c :: cs).take MAX_CONCURRENT_CHUNKS).length =
            MAX_CONCURRENT_CHUNKS := by
          rw [List.length_take, hlc]
          rw [hlc] at hge
          simp only [MAX_CONCURRENT_CHUNKS] at hge ⊢
          omega
        rw [hlen3] at hsplit
        rw [hsplit]
        rfl
      · have hdrop : (c :: cs).drop MAX_CONCURRENT_CHUNKS = [] :=
          List.drop_eq_nil_of_le (by omega)
        rw [hdrop] at hsplit ⊢
        rw [hsplit]
        simp [combineTriple, flatCollect]

/-- The controller with no fatal-class error returns the sorted segments,
the unscored count, and the error list of the flat bookkeeping. -/
theorem processChunks_no_fatal (out : ℕ → ChunkNetOutcome)
    (chunks : List TextChunk)
    (hnf : ∀ k, k < chunks.length → isFatalOutcome (out k) = false) :
    processChunksConcurrentlyM out chunks =
      .ok (sortSegs (flatCollect out chunks 0).1,
        (flatCollect out chunks 0).2.1, (flatCollect out chunks 0).2.2) := by
  unfold processChunksConcurrentlyM
  rw [processChunksLoop_no_fatal out (chunks.length + 1) chunks 0 (by omega)
    (by intro k hk; simpa using hnf k hk)]

/-- When the controller aborts, `checkPlagiarism` has collected no segments
(the local array is untouched), so it re-throws with the `UPSTREAM_ERROR: `
marker. -/
theorem checkPlagiarismM_chunks_error (text : List Char)
    (out : ℕ → ChunkNetOutcome) (ai : Except String AIDetectionResult)
    (e : String)
    (he : processChunksConcurrentlyM out
      ((chunkText text).take MAX_CHUNKS_TO_PROCESS) = .error e) :
    checkPlagiarismM ⟨.ok text, out, ai⟩ = .error ("UPSTREAM_ERROR: " ++ e) := by
  unfold checkPlagiarismM
  simp only [he]

/-- C5: a fatal-class (5xx/upstream) Source Finder error on a chunk of the
first batch — with no suspicious segment collected, which is automatic
because the aborting controller discards its partial state — makes the run
return `ok = false` with `upstream_error`; the result does not depend on the
oracle beyond the first batch (later batches and the authorship stage are
never consulted); and when no chunk fails fatally, every non-fatal chunk
error is absorbed: it is recorded, counted as unscored unless marked
`UPSTREAM_WARNING`, and the remaining chunks are still processed, as the
flat single-pass bookkeeping states. -/
theorem c5_fatal_abort_nonfatal_absorb (text : List Char)
    (out : ℕ → ChunkNetOutcome) (ai : Except String AIDetectionResult)
    (j : ℕ) (m : String)
    (hj3 : j < MAX_CONCURRENT_CHUNKS)
    (hjl : j < ((chunkText text).take MAX_CHUNKS_TO_PROCESS).length)
    (hout : out j = .errored m) (hfatal : isFatalChunkError m = true) :
    (runPipelineM plainTextInput ⟨.ok text, out, ai⟩).ok = false ∧
    (runPipelineM plainTextInput ⟨.ok text, out, ai⟩).errorType =
      some .upstream_error ∧
    (∀ (out2 : ℕ → ChunkNetOutcome) (ai2 : Except String AIDetectionResult),
      (∀ k, k < MAX_CONCURRENT_CHUNKS → out2 k = out k) →
      runPipelineM plainTextInput ⟨.ok text, out2, ai2⟩ =
        runPipelineM plainTextInput ⟨.ok text, out, ai⟩) ∧
    (∀ (out3 : ℕ → ChunkNetOutcome) (chunks3 : List TextChunk),
      (∀ k, k < chunks3.length → isFatalOutcome (out3 k) = false) →
      processChunksConcurrentlyM out3 chunks3 =
        .ok (sortSegs (flatCollect out3 chunks3 0).1,
          (flatCollect out3 chunks3 0).2.1, (flatCollect out3 chunks3 0).2.2)) := by
  have hfo : isFatalOutcome (out j) = true := by
    rw [hout]; simpa [isFatalOutcome] using hfatal
  obtain ⟨e, he⟩ := processChunks_fatal_batch1 out
    ((chunkText text).take MAX_CHUNKS_TO_PROCESS) j hj3 hjl hfo
  have hcheck := checkPlagiarismM_chunks_error text out ai e he
  have hrun : runPipelineM plainTextInput ⟨.ok text, out, ai⟩ =
      classifyThrown ("UPSTREAM_ERROR: " ++ e) := by
    unfold runPipelineM checkOutcomeOf
    rw [hcheck]
    rfl
  refine ⟨?_, ?_, ?_, ?_⟩
  · rw [hrun]; rfl
  · rw [hrun]
    show some (thrownErrorType _) = some .upstream_error
    rw [thrownErrorType_upstream_wrap]
  · intro out2 ai2 hagree
    have he2 : processChunksConcurrentlyM out2
        ((chunkText text).take MAX_CHUNKS_TO_PROCESS) = .error e := by
      rw [processChunks_agree_batch1 out out2 _ hagree j hj3 hjl hfo, he]
    have hcheck2 := checkPlagiarismM_chunks_error text out2 ai2 e he2
    unfold runPipelineM checkOutcomeOf
    rw [hcheck, hcheck2]
  · exact fun out3 chunks3 h => processChunks_no_fatal out3 chunks3 h

/-- C5 witness: a 100-character document whose first chunk's web search
throws the simulated 503. -/
theorem c5_fatal_abort_nonfatal_absorb_witness :
    (runPipelineM plainTextInput
      ⟨.ok (List.replicate 100 'a'), fun _ => .errored serp503Msg,
        .ok ⟨1 / 2, .uncertain⟩⟩).ok = false ∧
    (runPipelineM plainTextInput
      ⟨.ok (List.replicate 100 'a'), fun _ => .errored serp503Msg,
        .ok ⟨1 / 2, .uncertain⟩⟩).errorType = some .upstream_error ∧
    (∀ (out2 : ℕ → ChunkNetOutcome) (ai2 : Except String AIDetectionResult),
      (∀ k, k < MAX_CONCURRENT_CHUNKS → out2 k = (fun _ => .errored serp503Msg) k) →
      runPipelineM plainTextInput ⟨.ok (List.replicate 100 'a'), out2, ai2⟩ =
        runPipelineM plainTextInput
          ⟨.ok (List.replicate 100 'a'), fun _ => .errored serp503Msg,
            .ok ⟨1 / 2, .uncertain⟩⟩) ∧
    (∀ (out3 : ℕ → ChunkNetOutcome) (chunks3 : List TextChunk),
      (∀ k, k < chunks3.length → isFatalOutcome (out3 k) = false) →
      processChunksConcurrentlyM out3 chunks3 =
        .ok (sortSegs (flatCollect out3 chunks3 0).1,
          (flatCollect out3 chunks3 0).2.1, (flatCollect out3 chunks3 0).2.2)) :=
  c5_fatal_abort_nonfatal_absorb (List.replicate 100 'a')
    (fun _ => .errored serp503Msg) (.ok ⟨1 / 2, .uncertain⟩) 0 serp503Msg
    (by decide)
    (by
      rw [chunkText_short (List.replicate 100 'a') (by decide) (by simp)]
      simp [MAX_CHUNKS_TO_PROCESS])
    rfl (by decide)

/- ===================== claim C3 ===================== -/

/-- The spec's merge loop on (start, end) ranges: extend the current range
while the next start is at or before the current end, otherwise flush. -/
def mergeRangesGo (cur : ℤ × ℤ) : List (ℤ × ℤ) → List (ℤ × ℤ)
  | [] => [cur]
  | (s, e) :: rest =>
    if s ≤ cur.2 then mergeRangesGo (cur.1, max cur.2 e) rest
    else cur :: mergeRangesGo (s, e) rest

/-- Merge a sorted range list into non-overlapping ranges (spec wording). -/
def mergeRangesSpec : List (ℤ × ℤ) → List (ℤ × ℤ)
  | [] => []
  | r :: rs => mergeRangesGo r rs

/-- Sum of the lengths of a range list. -/
def rangeLens (l : List (ℤ × ℤ)) : ℤ :=
  (l.map (fun r => r.2 - r.1)).sum

/-- The spec's merged character coverage of a segment list: sort by start
index, merge, and sum the merged range lengths. -/
def coverageSpec (segs : List SuspiciousSegment) : ℤ :=
  rangeLens (mergeRangesSpec
    ((sortSegs segs).map (fun s => (s.startIndex, s.endIndex))))

/-- Clamp to the percentage interval. -/
def clamp0100 (x : ℚ) : ℚ :=
  min 100 (max 0 x)

/-- The imperative merge loop computes the total length of the spec-merged
ranges on top of its accumulator. -/
theorem mergeLoop_eq_rangeLens :
    ∀ (rest : List SuspiciousSegment) (cs ce tot : ℤ),
      mergeLoop rest cs ce tot =
        tot + rangeLens (mergeRangesGo (cs, ce)
          (rest.map (fun s => (s.startIndex, s.endIndex)))) := by
  intro rest
  induction rest with
  | nil => intro cs ce tot; simp [mergeLoop, mergeRangesGo, rangeLens]
  | cons seg rest ih =>
    intro cs ce tot
    by_cases h : seg.startIndex ≤ ce
    · simp only [mergeLoop, List.map_cons, mergeRangesGo, h, if_pos, ih]
    · simp only [mergeLoop, List.map_cons, mergeRangesGo, h, if_neg, ih,
        not_false_iff]
      simp [rangeLens]
      ring

/-- Inserting never empties a list. -/
theorem insertSeg_ne_nil (a : SuspiciousSegment) (l : List SuspiciousSegment) :
    insertSeg a l ≠ [] := by
  cases l with
  | nil => simp [insertSeg]
  | cons y ys =>
    unfold insertSeg
    split_ifs <;> simp

/-- Membership is preserved by insertion. -/
theorem mem_insertSeg (a x : SuspiciousSegment) :
    ∀ l, x ∈ insertSeg a l ↔ x = a ∨ x ∈ l := by
  intro l
  induction l with
  | nil => simp [insertSeg]
  | cons y ys ih =>
    unfold insertSeg
    split_ifs with h
    · simp only [List.mem_cons, ih]
      tauto
    · simp only [List.mem_cons]

/-- Membership is preserved by the stable sort. -/
theorem mem_sortSegs (x : SuspiciousSegment) :
    ∀ l, x ∈ sortSegs l ↔ x ∈ l := by
  intro l
  induction l with
  | nil => simp [sortSegs]
  | cons y ys ih =>
    unfold sortSegs
    rw [mem_insertSeg]
    simp only [List.mem_cons, ih]

/-- Sorting a nonempty list is nonempty. -/
theorem sortSegs_ne_nil (l : List SuspiciousSegment) (h : l ≠ []) :
    sortSegs l ≠ [] := by
  cases l with
  | nil => exact absurd rfl h
  | cons y ys => exact insertSeg_ne_nil y (sortSegs ys)

/-- The merge loop strictly grows its accumulator when the current range and
every remaining segment are non-degenerate. -/
theorem mergeLoop_pos :
    ∀ (rest : List SuspiciousSegment) (cs ce tot : ℤ),
      cs < ce → (∀ s ∈ rest, s.startIndex < s.endIndex) →
      tot < mergeLoop rest cs ce tot := by
  intro rest
  induction rest with
  | nil => intro cs ce tot h _; simp [mergeLoop]; omega
  | cons seg rest ih =>
    intro cs ce tot h hall
    unfold mergeLoop
    split_ifs with hle
    · exact ih cs (max ce seg.endIndex) tot (lt_of_lt_of_le h (le_max_left _ _))
        (fun s hs => hall s (List.mem_cons_of_mem _ hs))
    · have hseg : seg.startIndex < seg.endIndex := hall seg (List.mem_cons_self _ _)
      have := ih seg.startIndex seg.endIndex (tot + (ce - cs)) hseg
        (fun s hs => hall s (List.mem_cons_of_mem _ hs))
      omega

/-- C3 amended: for positive text length the computed percentage equals the
spec's merged-coverage formula (sort, merge, sum, divide, scale, clamp), it
always lies in [0, 100], it is 0 when the segment list is empty, and it is
strictly positive whenever the list is nonempty and every segment is
non-degenerate (startIndex < endIndex); a degenerate segment can produce 0
with a nonempty list, so the unrestricted "0 iff empty" of the claim fails
only there. -/
theorem c3_amended_percentage (L : ℚ) (segs : List SuspiciousSegment)
    (hL : 0 < L) :
    calculatePlagiarismPercentage L segs =
      clamp0100 ((coverageSpec segs : ℚ) / L * 100) ∧
    0 ≤ calculatePlagiarismPercentage L segs ∧
    calculatePlagiarismPercentage L segs ≤ 100 ∧
    (segs = [] → calculatePlagiarismPercentage L segs = 0) ∧
    (segs ≠ [] → (∀ s ∈ segs, s.startIndex < s.endIndex) →
      0 < calculatePlagiarismPercentage L segs) := by
  have hLne : ¬ L = 0 := ne_of_gt hL
  refine ⟨?_, ?_, ?_, ?_, ?_⟩
  · by_cases hs : segs = []
    · subst hs
      simp [calculatePlagiarismPercentage, coverageSpec, sortSegs,
        mergeRangesSpec, rangeLens, clamp0100, hLne]
    · unfold calculatePlagiarismPercentage
      rw [if_neg (by tauto)]
      obtain ⟨s0, rest, hsort⟩ : ∃ s0 rest, sortSegs segs = s0 :: rest := by
        cases hx : sortSegs segs with
        | nil => exact absurd hx (sortSegs_ne_nil segs hs)
        | cons s0 rest => exact ⟨s0, rest, rfl⟩
      rw [hsort]
      unfold coverageSpec
      rw [hsort, List.map_cons]
      show clamp0100 _ = _
      rw [show mergeRangesSpec ((s0.startIndex, s0.endIndex) ::
          rest.map (fun s => (s.startIndex, s.endIndex))) =
        mergeRangesGo (s0.startIndex, s0.endIndex)
          (rest.map (fun s => (s.startIndex, s.endIndex))) from rfl]
      rw [mergeLoop_eq_rangeLens rest s0.startIndex s0.endIndex 0]
      rw [zero_add]
  · unfold calculatePlagiarismPercentage
    split
    · exact le_refl 0
    · split
      · exact le_refl 0
      · exact le_min (by norm_num) (le_max_left 0 _)
  · unfold calculatePlagiarismPercentage
    split
    · norm_num
    · split
      · norm_num
      · exact min_le_left _ _
  · intro hs
    subst hs
    simp [calculatePlagiarismPercentage]
  · intro hs hnd
    unfold calculatePlagiarismPercentage
    rw [if_neg (by tauto)]
    obtain ⟨s0, rest, hsort⟩ : ∃ s0 rest, sortSegs segs = s0 :: rest := by
      cases hx : sortSegs segs with
      | nil => exact absurd hx (sortSegs_ne_nil segs hs)
      | cons s0 rest => exact ⟨s0, rest, rfl⟩
    rw [hsort]
    have hmem0 : s0 ∈ segs := by
      rw [← mem_sortSegs]
      rw [hsort]
      exact List.mem_cons_self _ _
    have hrest : ∀ s ∈ rest, s.startIndex < s.endIndex := by
      intro s hsr
      apply hnd
      rw [← mem_sortSegs]
      rw [hsort]
      exact List.mem_cons_of_mem _ hsr
    have htot : (0 : ℤ) < mergeLoop rest s0.startIndex s0.endIndex 0 :=
      mergeLoop_pos rest s0.startIndex s0.endIndex 0 (hnd s0 hmem0) hrest
    have hpos : (0 : ℚ) <
        ((mergeLoop rest s0.startIndex s0.endIndex 0 : ℤ) : ℚ) / L * 100 := by
      apply mul_pos
      · exact div_pos (by exact_mod_cast htot) hL
      · norm_num
    show (0 : ℚ) < min 100 (max 0 _)
    exact lt_min (by norm_num) (lt_of_lt_of_le hpos (le_max_right 0 _))

/-- C3 amended witness: one segment covering [0, 10) of a 100-character
text. -/
theorem c3_amended_percentage_witness :
    calculatePlagiarismPercentage 100 [⟨0, 10, [], 1, []⟩] =
      clamp0100 ((coverageSpec [⟨0, 10, [], 1, []⟩] : ℚ) / 100 * 100) ∧
    0 ≤ calculatePlagiarismPercentage 100 [⟨0, 10, [], 1, []⟩] ∧
    calculatePlagiarismPercentage 100 [⟨0, 10, [], 1, []⟩] ≤ 100 ∧
    ([(⟨0, 10, [], 1, []⟩ : SuspiciousSegment)] = [] →
      calculatePlagiarismPercentage 100 [⟨0, 10, [], 1, []⟩] = 0) ∧
    ([(⟨0, 10, [], 1, []⟩ : SuspiciousSegment)] ≠ [] →
      (∀ s ∈ [(⟨0, 10, [], 1, []⟩ : SuspiciousSegment)],
        s.startIndex < s.endIndex) →
      0 < calculatePlagiarismPercentage 100 [⟨0, 10, [], 1, []⟩]) :=
  c3_amended_percentage 100 [⟨0, 10, [], 1, []⟩] (by norm_num)

/-- C3 counterexample: a degenerate segment (startIndex = endIndex = 5) on a
100-character text yields percentage 0 from a nonempty segment list, so
"0 iff the segment list is empty", read over every segment list, is false. -/
theorem c3_counterexample :
    calculatePlagiarismPercentage 100 [⟨5, 5, [], 1, []⟩] = 0 ∧
    [(⟨5, 5, [], 1, []⟩ : SuspiciousSegment)] ≠ [] := by
  constructor
  · unfold calculatePlagiarismPercentage
    rw [if_neg (by simp)]
    show clamp0100 _ = 0
    norm_num [sortSegs, insertSeg, mergeLoop, clamp0100]
  · simp

/- ===================== claim C9 ===================== -/

/-- CR-LF replacement is the identity on CR-free text. -/
theorem replaceCRLF_id : ∀ l : List Char, (∀ c ∈ l, c ≠ '\r') →
    replaceCRLF l = l := by
  intro l
  induction l with
  | nil => intro _; rfl
  | cons a tail ih =>
    intro h
    cases tail with
    | nil => rfl
    | cons b rest =>
      unfold replaceCRLF
      rw [if_neg (by
        intro hc
        exact h a (List.mem_cons_self _ _) hc.1)]
      rw [ih (fun c hc => h c (List.mem_cons_of_mem _ hc))]

/-- CR replacement is the identity on CR-free text. -/
theorem replaceCR_id (l : List Char) (h : ∀ c ∈ l, c ≠ '\r') :
    replaceCR l = l := by
  unfold replaceCR
  induction l with
  | nil => rfl
  | cons c rest ih =>
    rw [List.map_cons]
    rw [if_neg (h c (List.mem_cons_self _ _))]
    rw [ih (fun x hx => h x (List.mem_cons_of_mem _ hx))]

/-- Newline collapsing is the identity on newline-free text. -/
theorem collapseNewlines_id : ∀ l : List Char, (∀ c ∈ l, c ≠ '\n') →
    collapseNewlines l = l := by
  have aux : ∀ l : List Char, (∀ c ∈ l, c ≠ '\n') →
      collapseNewlinesAux 0 l = l := by
    intro l
    induction l with
    | nil => intro _; simp [collapseNewlinesAux, emitNewlineRun]
    | cons c rest ih =>
      intro h
      unfold collapseNewlinesAux
      rw [if_neg (h c (List.mem_cons_self _ _))]
      rw [ih (fun x hx => h x (List.mem_cons_of_mem _ hx))]
      simp [emitNewlineRun]
  exact fun l h => aux l h

/-- Space/tab collapsing is the identity on text without spaces and tabs. -/
theorem collapseSpaceTab_id : ∀ l : List Char, (∀ c ∈ l, isSpaceTab c = false) →
    collapseSpaceTab l = l := by
  intro l
  induction l with
  | nil => intro _; rfl
  | cons a tail ih =>
    intro h
    cases tail with
    | nil =>
      unfold collapseSpaceTab
      rw [if_neg (by simp [h a (List.mem_cons_self _ _)])]
    | cons b rest =>
      unfold collapseSpaceTab
      rw [if_neg (by simp [h a (List.mem_cons_self _ _)])]
      rw [if_neg (by simp [h a (List.mem_cons_self _ _)])]
      rw [ih (fun c hc => h c (List.mem_cons_of_mem _ hc))]

/-- The whole normalization chain is the identity on a run of a plain
letter. -/
theorem normalizeCore_replicate_a (n : ℕ) :
    normalizeCore (List.replicate n 'a') = List.replicate n 'a' := by
  have hmem : ∀ c ∈ List.replicate n 'a', c = 'a' := by
    intro c hc
    exact List.eq_of_mem_replicate hc
  unfold normalizeCore
  rw [replaceCRLF_id _ (fun c hc => by rw [hmem c hc]; decide)]
  rw [replaceCR_id _ (fun c hc => by rw [hmem c hc]; decide)]
  rw [collapseNewlines_id _ (fun c hc => by rw [hmem c hc]; decide)]
  rw [collapseSpaceTab_id _ (fun c hc => by rw [hmem c hc]; decide)]
  rw [trimChars_replicate_of_nonspace _ _ (by decide)]
  rw [List.filter_eq_self.mpr (fun c hc => by rw [hmem c hc]; decide)]

/-- Trimming never lengthens a list. -/
theorem trimChars_length_le (l : List Char) : (trimChars l).length ≤ l.length := by
  unfold trimChars
  calc ((l.dropWhile isJsSpace).reverse.dropWhile isJsSpace).reverse.length
      = ((l.dropWhile isJsSpace).reverse.dropWhile isJsSpace).length := by
        rw [List.length_reverse]
    _ ≤ (l.dropWhile isJsSpace).reverse.length :=
        (List.dropWhile_sublist _).length_le
    _ = (l.dropWhile isJsSpace).length := by rw [List.length_reverse]
    _ ≤ l.length := (List.dropWhile_sublist _).length_le

/-- C9 counterexample: a 200,001-character input is normalized unchanged —
`normalizeText` applies no 200,000-character cap, so the report's
`normalizedTextLength` for this input is 200,001 > 200,000, contradicting
"truncates to the cap silently, so the report's normalizedTextLength never
exceeds the cap". -/
theorem c9_counterexample :
    normalizeText (List.replicate 200001 'a') =
      .ok (List.replicate 200001 'a') ∧
    200000 < (List.replicate 200001 'a').length := by
  constructor
  · unfold normalizeText
    rw [if_neg (by
      rw [List.replicate_eq_nil_iff]
      norm_num)]
    rw [normalizeCore_replicate_a]
    rw [if_neg (by
      rw [List.length_replicate]
      norm_num)]
  · rw [List.length_replicate]
    norm_num

/-- C9 amended: the Normalizer enforces only the 50-character minimum — a
successful normalization returns the uncapped chain output of length ≥ 50,
a too-short normalization fails with the validation error, and normalized
text may exceed 200,000 characters (the cap exists only inside the AI
detector, which truncates its own analysis copy to at most 200,000
characters). -/
theorem c9_amended_no_truncation (t : List Char) :
    (∀ n, normalizeText t = .ok n → 50 ≤ n.length ∧ n = normalizeCore t) ∧
    (t ≠ [] → (normalizeCore t).length < 50 →
      normalizeText t = .error (.tooShort (normalizeCore t).length)) ∧
    (aiTextToAnalyze t).length ≤ AI_MAX_TEXT_LENGTH ∧
    normalizeText (List.replicate 200001 'a') =
      .ok (List.replicate 200001 'a') ∧
    AI_MAX_TEXT_LENGTH < (List.replicate 200001 'a').length := by
  refine ⟨?_, ?_, ?_, ?_, ?_⟩
  · intro n hn
    unfold normalizeText at hn
    by_cases ht : t = []
    · rw [if_pos ht] at hn
      cases hn
    · rw [if_neg ht] at hn
      by_cases hlen : (normalizeCore t).length < 50
      · rw [if_pos hlen] at hn
        cases hn
      · rw [if_neg hlen] at hn
        cases hn
        exact ⟨by omega, rfl⟩
  · intro ht hlen
    unfold normalizeText
    rw [if_neg ht, if_pos hlen]
  · unfold aiTextToAnalyze
    calc (trimChars (t.take AI_MAX_TEXT_LENGTH)).length
        ≤ (t.take AI_MAX_TEXT_LENGTH).length := trimChars_length_le _
      _ ≤ AI_MAX_TEXT_LENGTH := by simp
  · unfold normalizeText
    rw [if_neg (by
      rw [List.replicate_eq_nil_iff]
      norm_num)]
    rw [normalizeCore_replicate_a]
    rw [if_neg (by
      rw [List.length_replicate]
      norm_num)]
  · rw [List.length_replicate]
    norm_num [AI_MAX_TEXT_LENGTH]

/-- C9 amended witness: a 60-character document normalizes to itself, and a
10-character document fails validation. -/
theorem c9_amended_no_truncation_witness :
    (∀ n, normalizeText (List.replicate 60 'a') = .ok n →
      50 ≤ n.length ∧ n = normalizeCore (List.replicate 60 'a')) ∧
    (List.replicate 60 'a' ≠ [] →
      (normalizeCore (List.replicate 60 'a')).length < 50 →
      normalizeText (List.replicate 60 'a') =
        .error (.tooShort (normalizeCore (List.replicate 60 'a')).length)) ∧
    (aiTextToAnalyze (List.replicate 60 'a')).length ≤ AI_MAX_TEXT_LENGTH ∧
    normalizeText (List.replicate 200001 'a') =
      .ok (List.replicate 200001 'a') ∧
    AI_MAX_TEXT_LENGTH < (List.replicate 200001 'a').length :=
  c9_amended_no_truncation (List.replicate 60 'a')

/- ===================== claim C4 ===================== -/

/-- Index-wise characterization of the chunk list: the `i`-th chunk starts at
`s + i·1300`, ends at `min(start + 1500, len)`, carries exactly that slice of
the text, and starts inside the text.  The fuel hypothesis
`len ≤ s + fuel·1300` is the invariant maintained by `chunkText`'s choice of
fuel, under which the fuel never runs out. -/
theorem chunkTextAux_get (text : List Char) :
    ∀ (fuel s i : ℕ) (c : TextChunk),
      text.length ≤ s + fuel * 1300 →
      (chunkTextAux text fuel s).get? i = some c →
      c.startIndex = s + i * 1300 ∧
      c.endIndex = min (c.startIndex + 1500) text.length ∧
      c.text = (text.drop c.startIndex).take (c.endIndex - c.startIndex) ∧
      c.startIndex < text.length := by
  intro fuel
  induction fuel with
  | zero => intro s i c hf hc; simp [chunkTextAux] at hc
  | succ f ih =>
    intro s i c hf hc
    simp only [chunkTextAux, CHUNK_SIZE, CHUNK_OVERLAP] at hc
    by_cases hs : s < text.length
    · rw [if_pos hs] at hc
      by_cases hb : min (s + 1500) text.length = s + (1500 - 200)
      · rw [if_pos hb] at hc
        cases i with
        | zero =>
          rw [List.get?_cons_zero] at hc
          obtain rfl := Option.some_injective _ hc
          exact ⟨by simp, by simp, by simp, hs⟩
        | succ i' =>
          rw [List.get?_cons_succ] at hc
          simp at hc
      · rw [if_neg hb] at hc
        cases i with
        | zero =>
          rw [List.get?_cons_zero] at hc
          obtain rfl := Option.some_injective _ hc
          exact ⟨by simp, by simp, by simp, hs⟩
        | succ i' =>
          rw [List.get?_cons_succ] at hc
          have hf' : text.length ≤ (s + (1500 - 200)) + f * 1300 := by omega
          obtain ⟨h1, h2, h3, h4⟩ := ih (s + (1500 - 200)) i' c hf' hc
          refine ⟨by omega, h2, h3, h4⟩
    · rw [if_neg hs] at hc
      simp at hc

/-- The chunk loop emits nothing once the start index passes the end of the
text. -/
theorem chunkTextAux_nil_of_le (text : List Char) (fuel s : ℕ)
    (h : text.length ≤ s) : chunkTextAux text fuel s = [] := by
  cases fuel with
  | zero => rfl
  | succ f =>
    simp only [chunkTextAux]
    rw [if_neg (by omega)]

/-- The last chunk always ends exactly at the end of the text. -/
theorem chunkTextAux_getLast (text : List Char) :
    ∀ (fuel s : ℕ) (c : TextChunk),
      text.length ≤ s + fuel * 1300 →
      (chunkTextAux text fuel s).getLast? = some c →
      c.endIndex = text.length := by
  intro fuel
  induction fuel with
  | zero => intro s c hf hc; simp [chunkTextAux] at hc
  | succ f ih =>
    intro s c hf hc
    simp only [chunkTextAux, CHUNK_SIZE, CHUNK_OVERLAP] at hc
    by_cases hs : s < text.length
    · rw [if_pos hs] at hc
      by_cases hb : min (s + 1500) text.length = s + (1500 - 200)
      · rw [if_pos hb] at hc
        rw [List.getLast?_singleton] at hc
        obtain rfl := Option.some_injective _ hc
        show min (s + 1500) text.length = text.length
        omega
      · rw [if_neg hb] at hc
        cases hr : chunkTextAux text f (s + (1500 - 200)) with
        | nil =>
          rw [hr, List.getLast?_singleton] at hc
          obtain rfl := Option.some_injective _ hc
          show min (s + 1500) text.length = text.length
          by_cases hsl : s + (1500 - 200) < text.length
          · exfalso
            have := chunkTextAux_nil_of_le text f (s + (1500 - 200))
            cases f with
            | zero => omega
            | succ f' =>
              simp only [chunkTextAux] at hr
              rw [if_pos hsl] at hr
              split_ifs at hr
          · omega
        | cons b t =>
          rw [hr, List.getLast?_cons_cons, ← hr] at hc
          exact ih (s + (1500 - 200)) c (by omega) hc
    · rw [if_neg hs] at hc
      simp at hc

/-- Every text position is covered by some chunk. -/
theorem chunkTextAux_covers (text : List Char) :
    ∀ (fuel s i : ℕ),
      text.length ≤ s + fuel * 1300 →
      s ≤ i → i < text.length →
      ∃ c ∈ chunkTextAux text fuel s, c.startIndex ≤ i ∧ i < c.endIndex := by
  intro fuel
  induction fuel with
  | zero => intro s i hf hsi hi; omega
  | succ f ih =>
    intro s i hf hsi hi
    have hs : s < text.length := by omega
    simp only [chunkTextAux, CHUNK_SIZE, CHUNK_OVERLAP]
    rw [if_pos hs]
    by_cases hb : min (s + 1500) text.length = s + (1500 - 200)
    · rw [if_pos hb]
      refine ⟨_, List.mem_singleton_self _, by simpa using hsi, ?_⟩
      show i < min (s + 1500) text.length
      omega
    · rw [if_neg hb]
      by_cases hcov : i < min (s + 1500) text.length
      · exact ⟨_, List.mem_cons_self _ _, by simpa using hsi, hcov⟩
      · have hnext : s + (1500 - 200) ≤ i := by omega
        obtain ⟨c, hmem, h1, h2⟩ := ih (s + (1500 - 200)) i (by omega) hnext hi
        exact ⟨c, List.mem_cons_of_mem _ hmem, h1, h2⟩

/-- De-overlap glue: drop from each chunk the part already emitted by its
predecessor (the predecessor's end minus the chunk's start), then
concatenate. -/
def glueFrom (prevEnd : ℕ) : List TextChunk → List Char
  | [] => []
  | c :: rest => c.text.drop (prevEnd - c.startIndex) ++ glueFrom c.endIndex rest

/-- Concatenation of the de-overlapped chunk texts. -/
def deoverlapConcat : List TextChunk → List Char
  | [] => []
  | c :: rest => c.text ++ glueFrom c.endIndex rest

/-- Gluing the chunk list from position `e` onwards reproduces the dropped
text. -/
theorem glueFrom_chunkTextAux (text : List Char) :
    ∀ (fuel s e : ℕ),
      text.length ≤ s + fuel * 1300 →
      s ≤ e → e ≤ min (s + 1500) text.length →
      glueFrom e (chunkTextAux text fuel s) = text.drop e := by
  intro fuel
  induction fuel with
  | zero =>
    intro s e hf hse he
    simp only [chunkTextAux, glueFrom]
    rw [List.drop_eq_nil_of_le (by omega)]
  | succ f ih =>
    intro s e hf hse he
    by_cases hs : s < text.length
    · simp only [chunkTextAux, CHUNK_SIZE, CHUNK_OVERLAP]
      rw [if_pos hs]
      have hslice : (((text.drop s).take (min (s + 1500) text.length - s)).drop (e - s)) =
          (text.drop e).take (min (s + 1500) text.length - e) := by
        rw [List.drop_take, List.drop_drop]
        congr 1
        · omega
        · congr 1
          omega
      by_cases hb : min (s + 1500) text.length = s + (1500 - 200)
      · rw [if_pos hb]
        simp only [glueFrom, List.append_nil]
        rw [hslice]
        have hend : min (s + 1500) text.length = text.length := by omega
        rw [hend]
        exact List.take_of_length_le (by rw [List.length_drop])
      · rw [if_neg hb]
        simp only [glueFrom]
        rw [hslice]
        by_cases hsl : s + (1500 - 200) < text.length
        · rw [ih (s + (1500 - 200)) (min (s + 1500) text.length) (by omega)
            (by omega) (by omega)]
          rw [show text.drop (min (s + 1500) text.length) =
            (text.drop e).drop (min (s + 1500) text.length - e) by
              rw [List.drop_drop]; congr 1; omega]
          exact List.take_append_drop _ _
        · rw [chunkTextAux_nil_of_le text f (s + (1500 - 200)) (by omega)]
          simp only [glueFrom, List.append_nil]
          have hend : min (s + 1500) text.length = text.length := by omega
          rw [hend]
          exact List.take_of_length_le (by rw [List.length_drop])
    · rw [chunkTextAux_nil_of_le text (f + 1) s (by omega)]
      simp only [glueFrom]
      rw [List.drop_eq_nil_of_le (by omega)]

/-- C4: the chunker at its production configuration (chunkSize 1500, overlap
200).  Every chunk is the exact slice `[startIndex, endIndex)` of the text
with `endIndex - startIndex ≤ 1500`; consecutive chunks advance by 1300 and
overlap (no gaps); every pair of consecutive chunks that is not final
overlaps by exactly 200 characters; every text position is covered; the
first chunk starts at 0; the last chunk ends at `len(T)`; and concatenating
the de-overlapped chunk texts reconstructs the text. -/
theorem c4_chunker (text : List Char) :
    (∀ c ∈ chunkText text,
      c.endIndex - c.startIndex ≤ CHUNK_SIZE ∧
      c.startIndex < c.endIndex ∧
      c.text = (text.drop c.startIndex).take (c.endIndex - c.startIndex)) ∧
    (∀ i c c', (chunkText text).get? i = some c →
      (chunkText text).get? (i + 1) = some c' →
      c'.startIndex = c.startIndex + (CHUNK_SIZE - CHUNK_OVERLAP) ∧
      c'.startIndex < c.endIndex) ∧
    (∀ i c c', (chunkText text).get? i = some c →
      (chunkText text).get? (i + 1) = some c' →
      ((chunkText text).get? (i + 2)).isSome = true →
      c.endIndex - c'.startIndex = CHUNK_OVERLAP) ∧
    (∀ i, i < text.length →
      ∃ c ∈ chunkText text, c.startIndex ≤ i ∧ i < c.endIndex) ∧
    (text ≠ [] → ∃ c rest, chunkText text = c :: rest ∧ c.startIndex = 0) ∧
    (∀ c, (chunkText text).getLast? = some c → c.endIndex = text.length) ∧
    deoverlapConcat (chunkText text) = text := by
  have hf : text.length ≤ 0 + (text.length + 1) * 1300 := by omega
  have hget := chunkTextAux_get text (text.length + 1)
  refine ⟨?_, ?_, ?_, ?_, ?_, ?_, ?_⟩
  · intro c hc
    rw [List.mem_iff_get?] at hc
    obtain ⟨i, hi⟩ := hc
    obtain ⟨h1, h2, h3, h4⟩ := hget 0 i c hf hi
    refine ⟨?_, ?_, h3⟩
    · simp only [CHUNK_SIZE]; omega
    · omega
  · intro i c c' hc hc'
    obtain ⟨h1, h2, h3, h4⟩ := hget 0 i c hf hc
    obtain ⟨h1', h2', h3', h4'⟩ := hget 0 (i + 1) c' hf hc'
    constructor
    · simp only [CHUNK_SIZE, CHUNK_OVERLAP]
      omega
    · omega
  · intro i c c' hc hc' hsome
    obtain ⟨c'', hc''⟩ := Option.isSome_iff_exists.mp hsome
    obtain ⟨h1, h2, h3, h4⟩ := hget 0 i c hf hc
    obtain ⟨h1', h2', h3', h4'⟩ := hget 0 (i + 1) c' hf hc'
    obtain ⟨h1'', h2'', h3'', h4''⟩ := hget 0 (i + 2) c'' hf hc''
    simp only [CHUNK_SIZE, CHUNK_OVERLAP]
    omega
  · intro i hi
    exact chunkTextAux_covers text (text.length + 1) 0 i hf (Nat.zero_le i) hi
  · intro h0
    obtain ⟨c, rest, hc⟩ := chunkText_ne_nil text h0
    refine ⟨c, rest, hc, ?_⟩
    have hz : (chunkText text).get? 0 = some c := by rw [hc]; rfl
    obtain ⟨h1, _, _, _⟩ := hget 0 0 c hf hz
    simpa using h1
  · intro c hc
    exact chunkTextAux_getLast text (text.length + 1) 0 c hf hc
  · cases hc : chunkText text with
    | nil =>
      have htext : text = [] := by
        by_contra h0
        obtain ⟨c, rest, hcc⟩ := chunkText_ne_nil text h0
        rw [hc] at hcc
        cases hcc
      rw [htext]
      rfl
    | cons c rest =>
      have hz : (chunkText text).get? 0 = some c := by rw [hc]; rfl
      obtain ⟨h1, _, _, _⟩ := hget 0 0 c hf hz
      have hstart : c.startIndex = 0 := by simpa using h1
      have hglue : glueFrom 0 (chunkText text) = text.drop 0 :=
        glueFrom_chunkTextAux text (text.length + 1) 0 0 hf le_rfl (Nat.zero_le _)
      rw [hc] at hglue
      simp only [glueFrom, hstart, Nat.zero_sub, List.drop_zero] at hglue
      simpa [deoverlapConcat] using hglue

/-- C4 witness: instantiation at a concrete 100-character text (one chunk). -/
theorem c4_chunker_witness :
    (∀ c ∈ chunkText (List.replicate 100 'a'),
      c.endIndex - c.startIndex ≤ CHUNK_SIZE ∧
      c.startIndex < c.endIndex ∧
      c.text = ((List.replicate 100 'a').drop c.startIndex).take
        (c.endIndex - c.startIndex)) ∧
    (∀ i c c', (chunkText (List.replicate 100 'a')).get? i = some c →
      (chunkText (List.replicate 100 'a')).get? (i + 1) = some c' →
      c'.startIndex = c.startIndex + (CHUNK_SIZE - CHUNK_OVERLAP) ∧
      c'.startIndex < c.endIndex) ∧
    (∀ i c c', (chunkText (List.replicate 100 'a')).get? i = some c →
      (chunkText (List.replicate 100 'a')).get? (i + 1) = some c' →
      ((chunkText (List.replicate 100 'a')).get? (i + 2)).isSome = true →
      c.endIndex - c'.startIndex = CHUNK_OVERLAP) ∧
    (∀ i, i < (List.replicate 100 'a').length →
      ∃ c ∈ chunkText (List.replicate 100 'a'),
        c.startIndex ≤ i ∧ i < c.endIndex) ∧
    (List.replicate 100 'a' ≠ [] → ∃ c rest,
      chunkText (List.replicate 100 'a') = c :: rest ∧ c.startIndex = 0) ∧
    (∀ c, (chunkText (List.replicate 100 'a')).getLast? = some c →
      c.endIndex = (List.replicate 100 'a').length) ∧
    deoverlapConcat (chunkText (List.replicate 100 'a')) =
      List.replicate 100 'a' :=
  c4_chunker (List.replicate 100 'a')
